import Mathlib

/-!
# Verification development for the voxel format contract

Shallow embedding of `src/modules/voxelformat/Format.cpp` and
`src/modules/io/FormatDescription.h`.

* 32-bit signed integers (`int`, the component type of `glm::ivec3`) are
  mathematical integers together with explicit reduction modulo `2 ^ 32`.
* Calls into collaborators whose code is outside the two source files
  (scene graph, volume utilities, configuration, codec hooks) are explicit
  parameters; observable calls are recorded in an event trace.
-/

/-! ## Machine integers -/

/-- Bit pattern (an unsigned 32-bit number) of a signed 32-bit value. -/
def toU32 (x : Int) : Nat := (x % 2 ^ 32).toNat

/-- Signed value of a 32-bit pattern in two's complement. -/
def ofU32 (n : Nat) : Int :=
  if n % 2 ^ 32 < 2 ^ 31 then ((n % 2 ^ 32 : Nat) : Int)
  else ((n % 2 ^ 32 : Nat) : Int) - 2 ^ 32

/-- Range of the C++ type `int` (32 bits). -/
def inI32 (x : Int) : Prop := -2 ^ 31 ≤ x ∧ x < 2 ^ 31

instance (x : Int) : Decidable (inI32 x) := by
  unfold inI32; infer_instance

/-- Reduction of a mathematical integer to the `int` with the same bit pattern. -/
def wrap32 (x : Int) : Int := ofU32 (toU32 x)

/-- The C++ `a + b` on `int`. -/
def add32 (a b : Int) : Int := wrap32 (a + b)

/-- The C++ `a - b` on `int`. -/
def sub32 (a b : Int) : Int := wrap32 (a - b)

/-- The C++ `~a` on `int`. -/
def not32 (a : Int) : Int := ofU32 (2 ^ 32 - 1 - toU32 a)

/-- The C++ `a & b` on `int`. -/
def and32 (a b : Int) : Int := ofU32 (toU32 a &&& toU32 b)

/-- A positive power of two that is representable as `int`: `2 ^ 0 .. 2 ^ 30`. -/
def IsPow2I32 (m : Int) : Prop := ∃ k : Nat, k ≤ 30 ∧ m = 2 ^ k

/-! ## glm -/

namespace glm

/-- The type `glm::ivec3`; index `[0]`, `[1]`, `[2]` is `x`, `y`, `z`. -/
structure IVec3 where
  x : Int
  y : Int
  z : Int
  deriving DecidableEq, Repr

/-- The test `glm::all(glm::lessThanEqual(a, b))`. -/
def allLessThanEqual (a b : IVec3) : Bool :=
  decide (a.x ≤ b.x) && decide (a.y ≤ b.y) && decide (a.z ≤ b.z)

/-- The constructor `glm::ivec3(v)` with one scalar. -/
def IVec3.splat (v : Int) : IVec3 := ⟨v, v, v⟩

end glm

open glm

/-! ## voxel: regions, volumes, palettes -/

namespace voxel

/-- An axis-aligned integer box given by its lower and upper corner
(both inclusive, compare the block region built in `Format::isEmptyBlock`). -/
structure Region where
  lower : IVec3
  upper : IVec3
  deriving DecidableEq, Repr

namespace Region

def getLowerCorner (r : Region) : IVec3 := r.lower

def getUpperCorner (r : Region) : IVec3 := r.upper

/-- Modelled from the spec: `voxel::Region::isValid` is not part of the two
source files; a region delimits valid coordinates between its lower and its
upper corner, so it is valid when the upper corner is not below the lower
corner on any axis. -/
def isValid (r : Region) : Bool :=
  decide (r.lower.x ≤ r.upper.x) && decide (r.lower.y ≤ r.upper.y) &&
    decide (r.lower.z ≤ r.upper.z)

/-- Modelled from the spec: `voxel::Region::getDimensionsInVoxels` is not part
of the two source files; the number of voxels per axis of the inclusive box
`lower .. upper` is `upper - lower + 1`, computed on `int`. -/
def getDimensionsInVoxels (r : Region) : IVec3 :=
  ⟨add32 (sub32 r.upper.x r.lower.x) 1, add32 (sub32 r.upper.y r.lower.y) 1,
    add32 (sub32 r.upper.z r.lower.z) 1⟩

/-- The region that a node without a volume reports (no valid coordinate). -/
def InvalidRegion : Region := ⟨⟨0, 0, 0⟩, ⟨-1, -1, -1⟩⟩

/-- Smallest box that contains both regions (used to speak about the
combined region of several nodes). -/
def accumulate (a b : Region) : Region :=
  ⟨⟨min a.lower.x b.lower.x, min a.lower.y b.lower.y, min a.lower.z b.lower.z⟩,
    ⟨max a.upper.x b.upper.x, max a.upper.y b.upper.y, max a.upper.z b.upper.z⟩⟩

/-- Modelled from the spec: `voxel::Region::containsPoint` is not part of the
two source files; a point is inside when it lies between the two corners on
every axis, corners included. -/
def containsPoint (r : Region) (p : IVec3) : Bool :=
  decide (r.lower.x ≤ p.x) && decide (p.x ≤ r.upper.x) &&
    decide (r.lower.y ≤ p.y) && decide (p.y ≤ r.upper.y) &&
    decide (r.lower.z ≤ p.z) && decide (p.z ≤ r.upper.z)

end Region

/-- Modelled from the spec: `voxel::RawVolume` is an external collaborator; a
voxel buffer with an axis-aligned region of valid coordinates. Only the
occupied voxels are listed, each with its colour index. -/
structure RawVolume where
  region : Region
  voxels : List (IVec3 × Nat)
  deriving DecidableEq, Repr

/-- Modelled from the spec: `voxel::Palette` maps an index to a 32-bit RGBA
value; `size` is the number of entries. -/
structure Palette where
  colors : List Nat
  deriving DecidableEq, Repr

/-- A default-constructed `voxel::Palette palette;`. -/
def Palette.empty : Palette := ⟨[]⟩

def Palette.size (p : Palette) : Nat := p.colors.length

end voxel

open voxel

/-! ## scenegraph -/

namespace scenegraph

inductive SceneGraphNodeType where
  | Root
  | Model
  | Group
  deriving DecidableEq, Repr

/-- Modelled from the spec: `scenegraph::SceneGraphNode` is an external
collaborator. A node owns a volume (possibly none), a name, a property
mapping, a palette, and has a parent (its group membership). -/
structure SceneGraphNode where
  type : SceneGraphNodeType
  name : String
  volume : Option RawVolume
  palette : Palette
  properties : List (String × String)
  parent : Int
  deriving DecidableEq, Repr

namespace SceneGraphNode

/-- A freshly constructed node of the given type (no volume, parent is the root,
which has id 0). -/
def ofType (t : SceneGraphNodeType) : SceneGraphNode :=
  ⟨t, "", none, Palette.empty, [], 0⟩

/-- The declaration `scenegraph::SceneGraphNode newNode;`. -/
def new : SceneGraphNode := ofType SceneGraphNodeType.Model

/-- The region of the node: the region of its volume. -/
def region (n : SceneGraphNode) : Region :=
  match n.volume with
  | some v => v.region
  | none => Region.InvalidRegion

def setVolume (n : SceneGraphNode) (v : Option RawVolume) : SceneGraphNode :=
  { n with volume := v }

def setPalette (n : SceneGraphNode) (p : Palette) : SceneGraphNode :=
  { n with palette := p }

end SceneGraphNode

/-- Modelled from the spec: `scenegraph::SceneGraph` is an external
collaborator offering ordered node iteration; it is represented by the
sequence of nodes that a range-based `for` visits. -/
structure SceneGraph where
  nodes : List SceneGraphNode
  deriving DecidableEq, Repr

namespace SceneGraph

/-- A newly constructed scene graph (the constructor argument is a capacity hint). -/
def empty : SceneGraph := ⟨[]⟩

/-- Modelled from the spec: `SceneGraph::emplace` inserts the node; nodes are
visited in insertion order. -/
def emplace (g : SceneGraph) (n : SceneGraphNode) : SceneGraph := ⟨g.nodes ++ [n]⟩

def size (g : SceneGraph) : Nat := g.nodes.length

end SceneGraph

/-- Modelled from the spec: `scenegraph::copyNode(src, target, flag)` is not
part of the two source files. With the flag set the node is copied verbatim,
including its group membership; without it the target receives the source
metadata (name, palette, properties) and the volume, but not the
group/parent relationship, so it stays below the root. -/
def copyNode (src target : SceneGraphNode) (flag : Bool) : SceneGraphNode :=
  { type := src.type
    name := src.name
    volume := src.volume
    palette := src.palette
    properties := src.properties
    parent := if flag then src.parent else target.parent }

end scenegraph

open scenegraph

/-! ## Collaborators of the format contract -/

namespace core

/-- A configuration variable (`core::Var`) with the value it currently holds. -/
structure Var where
  boolVal : Bool
  intVal : Int
  deriving DecidableEq, Repr

/-- The type `core::RGBA`: four 8-bit channels. -/
structure RGBA where
  r : Nat
  g : Nat
  b : Nat
  a : Nat
  deriving DecidableEq, Repr

/-- One channel rounded down to its bucket: the largest multiple of the factor
that is not above the channel value. A factor of at most 1 has buckets of one
value and leaves the channel unchanged. -/
def Color.quantize (c : Nat) (f : Int) : Nat :=
  if f ≤ 1 then c else c / f.toNat * f.toNat

/-- Modelled from the spec: `core::Color::flattenRGB` is not part of the two
source files; it quantizes each of the R, G, B and A channels by the factor,
so that near-duplicate colours collapse onto the same bucket. -/
def Color.flattenRGB (r g b a : Nat) (f : Int) : RGBA :=
  ⟨Color.quantize r f, Color.quantize g f, Color.quantize b f, Color.quantize a f⟩

end core

namespace io

/-- Modelled from the spec: the stream collaborator is a seekable byte
stream with explicit position get and set. -/
structure SeekableReadStream where
  data : List Nat
  cursor : Int
  deriving DecidableEq, Repr

/-- The call `stream.pos()`. -/
def SeekableReadStream.pos (s : SeekableReadStream) : Int := s.cursor

/-- The call `stream.seek(position)`. -/
def SeekableReadStream.seek (s : SeekableReadStream) (position : Int) : SeekableReadStream :=
  { s with cursor := position }

end io

open io

namespace voxelutil

/-- Modelled from the spec: `voxelutil::isEmpty` is not part of the two source
files; it is true when every voxel of the volume inside the region is empty,
that is when no occupied voxel lies inside the region. -/
def isEmpty (v : RawVolume) (region : Region) : Bool :=
  v.voxels.all (fun p => !region.containsPoint p.1)

end voxelutil

namespace voxelformat

/-- Everything `Format.cpp` reaches outside of the format object itself. -/
structure Env where
  /-- The method `SceneGraph::merge(bool)`, returning one volume and palette. -/
  merge : SceneGraph → Bool → Option RawVolume × Palette
  /-- The function `voxelutil::splitVolume`, returning the produced sub-volumes. -/
  splitVolume : Option RawVolume → IVec3 → List RawVolume
  /-- The function `voxelutil::cropVolume`. -/
  cropVolume : RawVolume → RawVolume
  /-- The answer of `app::App::getInstance()->shouldQuit()` at the n-th poll. -/
  shouldQuit : Nat → Bool
  /-- The method `SceneGraph::updateTransforms`. -/
  updateTransforms : SceneGraph → SceneGraph
  /-- The process-wide default palette `voxel::getPalette()`. -/
  getPalette : Palette
  /-- The variable behind `core::Var::getSafe(cfg::VoxformatMerge)`. -/
  voxformatMerge : core.Var
  /-- The pointer returned by `core::Var::get(cfg::VoxelCreatePalette)`; it is
  null when the variable is not registered. -/
  voxelCreatePalette : Option core.Var
  /-- The variable behind `core::Var::getSafe(cfg::VoxformatRGBFlattenFactor)`. -/
  voxformatRGBFlattenFactor : core.Var

/-- Observable calls made while saving. -/
inductive SaveEvent where
  | merge (g : SceneGraph)
  | splitVolumes (g : SceneGraph) (maxSize : IVec3) (crop : Bool)
  | splitVolume (v : Option RawVolume) (maxSize : IVec3)
  | cropVolume (v : RawVolume)
  | saveGroups (g : SceneGraph) (filename : String)
  deriving DecidableEq, Repr

/-- The format object: the virtual capability queries and the codec writer.
The output stream and the save context are handed to the writer untouched by
`Format::save`, so they are part of the writer function. -/
structure Format where
  maxSize : IVec3
  singleVolume : Bool
  saveGroups : SceneGraph → String → Bool
  /-- The member `_flattenFactor`. -/
  flattenFactor : Int

/-- The constructor `Format::Format`: the flatten factor is read from the
configuration; the virtual methods are supplied by the codec. -/
def Format.construct (env : Env) (maxSize : IVec3) (singleVolume : Bool)
    (saveGroups : SceneGraph → String → Bool) : Format :=
  { maxSize := maxSize
    singleVolume := singleVolume
    saveGroups := saveGroups
    flattenFactor := env.voxformatRGBFlattenFactor.intVal }

/-- The overload `Format::flattenRGB(core::RGBA)`. -/
def Format.flattenRGB (f : Format) (rgba : core.RGBA) : core.RGBA :=
  core.Color.flattenRGB rgba.r rgba.g rgba.b rgba.a f.flattenFactor

/-- The overload `Format::flattenRGB(uint8_t, uint8_t, uint8_t, uint8_t)`. -/
def Format.flattenRGB4 (f : Format) (r g b a : Nat) : core.RGBA :=
  core.Color.flattenRGB r g b a f.flattenFactor

/-- The default `Format::maxSize`: `glm::ivec3(-1)`. -/
def Format.defaultMaxSize : IVec3 := IVec3.splat (-1)

/-- The default `Format::singleVolume`: the merge setting. -/
def Format.defaultSingleVolume (env : Env) : Bool := env.voxformatMerge.boolVal

/-- One poll of `Format::stopExecution`. -/
def stopExecution (env : Env) (poll : Nat) : Bool := env.shouldQuit poll

/-- The inner loop of `Format::splitVolumes` over the sub-volumes of one node. -/
def emplaceSplit (env : Env) (node : SceneGraphNode) (crop : Bool) :
    List RawVolume → SceneGraph × List SaveEvent → SceneGraph × List SaveEvent
  | [], acc => acc
  | v :: rest, (dest, trace) =>
    let newNode := SceneGraphNode.new
    let cropped := if crop then env.cropVolume v else v
    let trace1 := if crop then trace ++ [SaveEvent.cropVolume v] else trace
    let newNode := copyNode node newNode false
    let newNode := newNode.setVolume (some cropped)
    emplaceSplit env node crop rest (dest.emplace newNode, trace1)

/-- The loop of `Format::splitVolumes`; `poll` counts the polls of the stop
signal made so far. -/
def splitVolumesLoop (env : Env) (maxSize : IVec3) (crop : Bool) :
    List SceneGraphNode → Nat → SceneGraph × List SaveEvent → SceneGraph × List SaveEvent
  | [], _, acc => acc
  | node :: rest, poll, (dest, trace) =>
    if stopExecution env poll then
      (dest, trace)
    else
      let region := node.region
      if !region.isValid then
        splitVolumesLoop env maxSize crop rest (poll + 1) (dest, trace)
      else if allLessThanEqual region.getDimensionsInVoxels maxSize then
        let newNode := SceneGraphNode.new
        let newNode := copyNode node newNode true
        splitVolumesLoop env maxSize crop rest (poll + 1) (dest.emplace newNode, trace)
      else
        let rawVolumes := env.splitVolume node.volume maxSize
        splitVolumesLoop env maxSize crop rest (poll + 1)
          (emplaceSplit env node crop rawVolumes
            (dest, trace ++ [SaveEvent.splitVolume node.volume maxSize]))

/-- The method `Format::splitVolumes`: the filled destination graph and the
collaborator calls made. -/
def splitVolumes (env : Env) (srcSceneGraph destSceneGraph : SceneGraph) (maxSize : IVec3)
    (crop : Bool) : SceneGraph × List SaveEvent :=
  splitVolumesLoop env maxSize crop srcSceneGraph.nodes 0 (destSceneGraph, [])

/-- The region built in `Format::isEmptyBlock`: the block of size `maxSize`
anchored at `(x, y, z)`. -/
def blockRegion (maxSize : IVec3) (x y z : Int) : Region :=
  ⟨⟨x, y, z⟩, ⟨sub32 (add32 x maxSize.x) 1, sub32 (add32 y maxSize.y) 1,
    sub32 (add32 z maxSize.z) 1⟩⟩

/-- The method `Format::isEmptyBlock`. -/
def isEmptyBlock (v : RawVolume) (maxSize : IVec3) (x y z : Int) : Bool :=
  let region := blockRegion maxSize x y z
  voxelutil.isEmpty v region

/-- The method `Format::calcMinsMaxs`: the pair `(mins, maxs)`. -/
def calcMinsMaxs (region : Region) (maxSize : IVec3) : IVec3 × IVec3 :=
  let lower := region.getLowerCorner
  let mins : IVec3 :=
    ⟨and32 lower.x (not32 (sub32 maxSize.x 1)),
     and32 lower.y (not32 (sub32 maxSize.y 1)),
     and32 lower.z (not32 (sub32 maxSize.z 1))⟩
  let upper := region.getUpperCorner
  let maxs : IVec3 :=
    ⟨sub32 (add32 (and32 upper.x (not32 (sub32 maxSize.x 1))) maxSize.x) 1,
     sub32 (add32 (and32 upper.y (not32 (sub32 maxSize.y 1))) maxSize.y) 1,
     sub32 (add32 (and32 upper.z (not32 (sub32 maxSize.z 1))) maxSize.z) 1⟩
  (mins, maxs)

/-- The scan in `Format::save` that sets `needsSplit`: the first node whose
dimensions are not all within `maxsize` ends the loop with `true`. -/
def needsSplitScan (maxsize : IVec3) : List SceneGraphNode → Bool
  | [] => false
  | node :: rest =>
    let region := node.region
    let maxs := region.getDimensionsInVoxels
    if allLessThanEqual maxs maxsize then needsSplitScan maxsize rest else true

/-- The method `Format::save`: the returned flag and the collaborator calls made. -/
def Format.save (f : Format) (env : Env) (sceneGraph : SceneGraph) (filename : String) :
    Bool × List SaveEvent :=
  let maxsize := f.maxSize
  let needsSplit :=
    if maxsize.x > 0 ∧ maxsize.y > 0 ∧ maxsize.z > 0 then
      needsSplitScan maxsize sceneGraph.nodes
    else false
  if needsSplit && f.singleVolume then
    (false, [])
  else if f.singleVolume then
    let merged := env.merge sceneGraph true
    let mergedSceneGraph := SceneGraph.empty
    let mergedNode := SceneGraphNode.ofType SceneGraphNodeType.Model
    let mergedNode := mergedNode.setVolume merged.1
    let mergedNode := mergedNode.setPalette merged.2
    let mergedSceneGraph := mergedSceneGraph.emplace mergedNode
    (f.saveGroups mergedSceneGraph filename,
      [SaveEvent.merge sceneGraph, SaveEvent.saveGroups mergedSceneGraph filename])
  else if needsSplit then
    let newSceneGraph := SceneGraph.empty
    let split := splitVolumes env sceneGraph newSceneGraph maxsize false
    (f.saveGroups split.1 filename,
      [SaveEvent.splitVolumes sceneGraph maxsize false] ++ split.2 ++
        [SaveEvent.saveGroups split.1 filename])
  else
    (f.saveGroups sceneGraph filename, [SaveEvent.saveGroups sceneGraph filename])

/-- Observable calls made while loading; a codec hook is recorded together
with the stream state and the palette it receives. -/
inductive LoadEvent where
  | loadGroupsPalette (stream : SeekableReadStream) (palette : Palette)
  | loadPalette (stream : SeekableReadStream) (palette : Palette)
  | seek (position : Int)
  | loadGroupsRGBA (stream : SeekableReadStream) (palette : Palette)
  | updateTransforms
  deriving DecidableEq, Repr

/-- Outcome of a load call: the returned flag, the stream and scene graph as
the call leaves them, and the calls made. -/
structure LoadResult where
  ok : Bool
  stream : SeekableReadStream
  sceneGraph : SceneGraph
  trace : List LoadEvent
  deriving DecidableEq, Repr

/-- A palette-indexed format: the codec supplies `loadGroupsPalette`, which
may move the stream cursor and fills the scene graph and the palette. The
load context is handed over untouched and is part of the codec function. -/
structure PaletteFormat extends Format where
  loadGroupsPalette : String → SeekableReadStream → SceneGraph → Palette →
    Bool × SeekableReadStream × SceneGraph × Palette

/-- A direct-RGBA format: the codec supplies `loadGroupsRGBA` and may
override `loadPalette`. -/
structure RGBAFormat extends Format where
  loadPalette : String → SeekableReadStream → Palette → Nat × SeekableReadStream × Palette
  loadGroupsRGBA : String → SeekableReadStream → SceneGraph → Palette →
    Bool × SeekableReadStream × SceneGraph

/-- The default `Format::loadPalette`: nothing is read, the size is 0. -/
def Format.loadPalette (_ : String) (stream : SeekableReadStream) (palette : Palette) :
    Nat × SeekableReadStream × Palette :=
  (0, stream, palette)

/-- The method `PaletteFormat::loadPalette`: loads into a scratch scene graph
and returns the size of the palette. -/
def PaletteFormat.loadPalette (f : PaletteFormat) (filename : String)
    (stream : SeekableReadStream) (palette : Palette) : Nat × SeekableReadStream × Palette :=
  let sceneGraph := SceneGraph.empty
  let r := f.loadGroupsPalette filename stream sceneGraph palette
  (r.2.2.2.size, r.2.1, r.2.2.2)

/-- The method `PaletteFormat::loadGroups`. -/
def PaletteFormat.loadGroups (f : PaletteFormat) (env : Env) (filename : String)
    (stream : SeekableReadStream) (sceneGraph : SceneGraph) : LoadResult :=
  let palette := Palette.empty
  let r := f.loadGroupsPalette filename stream sceneGraph palette
  if !r.1 then
    ⟨false, r.2.1, r.2.2.1, [LoadEvent.loadGroupsPalette stream palette]⟩
  else
    ⟨true, r.2.1, env.updateTransforms r.2.2.1,
      [LoadEvent.loadGroupsPalette stream palette, LoadEvent.updateTransforms]⟩

/-- The local `createPalette` of `RGBAFormat::loadGroups`: the pointer
returned by `core::Var::get` converted to `bool`, which is true exactly when
the pointer is not null. -/
def createPalette (env : Env) : Bool := env.voxelCreatePalette.isSome

/-- The palette selection of `RGBAFormat::loadGroups`: the stream and palette
handed to the decoder, and the calls made on the way. -/
def RGBAFormat.selectPalette (f : RGBAFormat) (env : Env) (filename : String)
    (stream : SeekableReadStream) : SeekableReadStream × Palette × List LoadEvent :=
  let palette := Palette.empty
  if createPalette env then
    let resetToPos := stream.pos
    let probe := f.loadPalette filename stream palette
    let selected := if probe.1 ≤ 0 then env.getPalette else probe.2.2
    let restored := probe.2.1.seek resetToPos
    (restored, selected, [LoadEvent.loadPalette stream palette, LoadEvent.seek resetToPos])
  else
    (stream, env.getPalette, [])

/-- The method `RGBAFormat::loadGroups`. -/
def RGBAFormat.loadGroups (f : RGBAFormat) (env : Env) (filename : String)
    (stream : SeekableReadStream) (sceneGraph : SceneGraph) : LoadResult :=
  let sel := f.selectPalette env filename stream
  let r := f.loadGroupsRGBA filename sel.1 sceneGraph sel.2.1
  if !r.1 then
    ⟨false, r.2.1, r.2.2, sel.2.2 ++ [LoadEvent.loadGroupsRGBA sel.1 sel.2.1]⟩
  else
    ⟨true, r.2.1, env.updateTransforms r.2.2,
      sel.2.2 ++ [LoadEvent.loadGroupsRGBA sel.1 sel.2.1, LoadEvent.updateTransforms]⟩

/-- The two implementations of the virtual `loadGroups` in `Format.cpp`. -/
inductive Loader where
  | palette (f : PaletteFormat)
  | rgba (f : RGBAFormat)

/-- Virtual dispatch of `loadGroups`. -/
def Loader.loadGroups (l : Loader) (env : Env) (filename : String)
    (stream : SeekableReadStream) (sceneGraph : SceneGraph) : LoadResult :=
  match l with
  | Loader.palette f => f.loadGroups env filename stream sceneGraph
  | Loader.rgba f => f.loadGroups env filename stream sceneGraph

/-- The codec routine that decodes the groups: `loadGroupsPalette` or
`loadGroupsRGBA`. -/
def LoadEvent.isCodecLoader : LoadEvent → Bool
  | LoadEvent.loadGroupsPalette _ _ => true
  | LoadEvent.loadGroupsRGBA _ _ => true
  | _ => false

/-- The method `Format::load`. -/
def Format.load (l : Loader) (env : Env) (filename : String)
    (stream : SeekableReadStream) (sceneGraph : SceneGraph) : LoadResult :=
  l.loadGroups env filename stream sceneGraph

end voxelformat

namespace voxelutil

/-- The values `lo, lo + m, lo + 2 m, ...` that are not above `hi`. -/
def axisSteps (lo hi m : Int) : List Int :=
  (List.range ((hi - lo) / m + 1).toNat).map (fun (i : Nat) => lo + (i : Int) * m)

/-- Origins of the `maxSize`-sized cells of the chunk-aligned box around the
region, the box being computed by the alignment rule of `calcMinsMaxs`. -/
def cellOrigins (region : Region) (maxSize : IVec3) : List IVec3 :=
  let mm := voxelformat.calcMinsMaxs region maxSize
  (axisSteps mm.1.x mm.2.x maxSize.x).flatMap fun x =>
    (axisSteps mm.1.y mm.2.y maxSize.y).flatMap fun y =>
      (axisSteps mm.1.z mm.2.z maxSize.z).map fun z => (⟨x, y, z⟩ : IVec3)

/-- The part of a volume inside a region. -/
def subVolume (v : RawVolume) (region : Region) : RawVolume :=
  ⟨region, v.voxels.filter (fun p => region.containsPoint p.1)⟩

/-- Modelled from the spec: `voxelutil::splitVolume` is not part of the two
source files; the volume is partitioned into sub-volumes aligned to
`maxSize`-sized cells (using the alignment rule of `calcMinsMaxs`), and cells
that are entirely empty are discarded. A null volume yields nothing. -/
def splitVolume (volume : Option RawVolume) (maxSize : IVec3) : List RawVolume :=
  match volume with
  | none => []
  | some v =>
    ((cellOrigins v.region maxSize).filter
      (fun o => !voxelformat.isEmptyBlock v maxSize o.x o.y o.z)).map
      (fun o => subVolume v (voxelformat.blockRegion maxSize o.x o.y o.z))

end voxelutil

/-! ## io: format descriptions -/

namespace io

/-- Lower-casing of a string, character by character. -/
def toLower (s : String) : String := ⟨s.data.map Char.toLower⟩

/-- The struct `io::FormatDescription`; `isA` is a function pointer that may be null. -/
structure FormatDescription where
  name : String
  exts : List String
  isA : Option (Nat → Bool)
  flags : Nat

namespace FormatDescription

def valid (d : FormatDescription) : Bool := !d.name.isEmpty

/-- Modelled from the spec: `FormatDescription::matchesExtension` is only
declared in the header; it is a case-insensitive containment check against
the extension set. -/
def matchesExtension (d : FormatDescription) (fileExt : String) : Bool :=
  d.exts.any (fun e => toLower e == toLower fileExt)

/-- The operator `FormatDescription::operator==`. -/
def eq (d rhs : FormatDescription) : Bool :=
  if d.name.isEmpty || rhs.name.isEmpty then
    match rhs.exts with
    | [] => false
    | first :: _ => d.matchesExtension first
  else
    d.name == rhs.name

end FormatDescription

end io

/-! ## Properties used to state the claims -/

/-- On one axis, `mins` is the largest multiple of `m` that is at most `lower`. -/
def IsFloorMultiple (m lower mins : Int) : Prop :=
  m ∣ mins ∧ mins ≤ lower ∧ lower < mins + m ∧ ∀ j : Int, m ∣ j → j ≤ lower → j ≤ mins

/-- On one axis, `mins .. maxs` is a chunk-aligned interval around `lower .. upper`. -/
def IsAlignedCover (m lower upper mins maxs : Int) : Prop :=
  mins ≤ lower ∧ upper ≤ maxs ∧ maxs = m * (upper / m) + (m - 1) ∧
    ∃ n : Int, 0 < n ∧ maxs - mins + 1 = n * m

/-- Some axis of `dims` is larger than the same axis of `maxSize`. -/
def Exceeds (dims maxSize : IVec3) : Prop :=
  maxSize.x < dims.x ∨ maxSize.y < dims.y ∨ maxSize.z < dims.z

instance (dims maxSize : IVec3) : Decidable (Exceeds dims maxSize) := by
  unfold Exceeds; infer_instance

/-- Every axis of `maxSize` is strictly positive: the format limits the size. -/
def Constrained (maxSize : IVec3) : Prop :=
  0 < maxSize.x ∧ 0 < maxSize.y ∧ 0 < maxSize.z

instance (maxSize : IVec3) : Decidable (Constrained maxSize) := by
  unfold Constrained; infer_instance

/-- The scene graph described by the specification for single-volume formats:
exactly one model node, carrying the volume and the palette returned by the
merge operation of the scene graph. -/
def mergedGraph (env : voxelformat.Env) (sceneGraph : SceneGraph) : SceneGraph :=
  ⟨[{ type := SceneGraphNodeType.Model
      name := ""
      volume := (env.merge sceneGraph true).1
      palette := (env.merge sceneGraph true).2
      properties := []
      parent := 0 }]⟩

/-- The flag and the scene graph returned by the codec routine that
`loadGroups` invokes (`loadGroupsPalette` or `loadGroupsRGBA`). -/
def codecResult (l : voxelformat.Loader) (env : voxelformat.Env) (filename : String)
    (stream : SeekableReadStream) (sceneGraph : SceneGraph) : Bool × SceneGraph :=
  match l with
  | voxelformat.Loader.palette f =>
    let r := f.loadGroupsPalette filename stream sceneGraph Palette.empty
    (r.1, r.2.2.1)
  | voxelformat.Loader.rgba f =>
    let sel := f.selectPalette env filename stream
    let r := f.loadGroupsRGBA filename sel.1 sceneGraph sel.2.1
    (r.1, r.2.2)

/-- The event is a call of the codec writer `saveGroups`. -/
def isSaveGroups : voxelformat.SaveEvent → Bool
  | voxelformat.SaveEvent.saveGroups _ _ => true
  | _ => false

/-- The event is a call of a volume utility made by `splitVolumes`. -/
def isSplitter : voxelformat.SaveEvent → Bool
  | voxelformat.SaveEvent.splitVolume _ _ => true
  | voxelformat.SaveEvent.cropVolume _ => true
  | _ => false

/-- The event is the entry into the chunking engine `splitVolumes`. -/
def isSplitVolumes : voxelformat.SaveEvent → Bool
  | voxelformat.SaveEvent.splitVolumes _ _ _ => true
  | _ => false

/-- The event is the merge of the scene graph. -/
def isMerge : voxelformat.SaveEvent → Bool
  | voxelformat.SaveEvent.merge _ => true
  | _ => false

/-- Effect of one iteration of the loop of `splitVolumes` on the destination
graph and the trace, for a node that is reached without stop signal. -/
def processNode (env : voxelformat.Env) (maxSize : IVec3) (crop : Bool) (node : SceneGraphNode)
    (acc : SceneGraph × List voxelformat.SaveEvent) : SceneGraph × List voxelformat.SaveEvent :=
  if node.region.isValid = false then acc
  else if allLessThanEqual node.region.getDimensionsInVoxels maxSize = true then
    (acc.1.emplace node, acc.2)
  else
    voxelformat.emplaceSplit env node crop (env.splitVolume node.volume maxSize)
      (acc.1, acc.2 ++ [voxelformat.SaveEvent.splitVolume node.volume maxSize])

/-- Conditions on one axis under which the alignment rule is meaningful: the
size is a positive power of two, the coordinates are `int` values with
`l ≤ u`, and the addition made by `calcMinsMaxs` does not overflow. -/
structure AxisInput (m l u : Int) : Prop where
  pow2 : IsPow2I32 m
  lo : inI32 l
  hi : inI32 u
  le : l ≤ u
  fits : inI32 (and32 u (not32 (sub32 m 1)) + m)

/-- The conditions of `AxisInput` on all three axes of a region. -/
def ChunkInput (region : Region) (maxSize : IVec3) : Prop :=
  AxisInput maxSize.x region.lower.x region.upper.x ∧
  AxisInput maxSize.y region.lower.y region.upper.y ∧
  AxisInput maxSize.z region.lower.z region.upper.z

/-- Two points lie in different `maxSize`-sized aligned cells. -/
def InDifferentCells (maxSize p q : IVec3) : Prop :=
  p.x / maxSize.x ≠ q.x / maxSize.x ∨ p.y / maxSize.y ≠ q.y / maxSize.y ∨
    p.z / maxSize.z ≠ q.z / maxSize.z

/-! ## Concrete instances -/

namespace Example

/-- A cube volume `lo .. lo + 15` on x with one occupied voxel at its lower corner. -/
def cubeAt (lo : Int) : RawVolume :=
  ⟨⟨⟨lo, 0, 0⟩, ⟨lo + 15, 15, 15⟩⟩, [(⟨lo, 0, 0⟩, 1)]⟩

/-- A model node owning the given volume. -/
def modelNode (name : String) (v : RawVolume) (parent : Int) : SceneGraphNode :=
  ⟨SceneGraphNodeType.Model, name, some v, ⟨[0xff0000ff]⟩, [], parent⟩

def nodeA : SceneGraphNode := modelNode "a" (cubeAt 0) 0

def nodeB : SceneGraphNode := modelNode "b" (cubeAt 16) 3

/-- A node whose x extent of 17 voxels is one more than 16. -/
def nodeWide : SceneGraphNode :=
  modelNode "wide" ⟨⟨⟨0, 0, 0⟩, ⟨16, 15, 15⟩⟩, [(⟨16, 0, 0⟩, 1)]⟩ 0

/-- Bounding region of all volumes of a node list. -/
def boundingRegion : List SceneGraphNode → Region
  | [] => Region.InvalidRegion
  | [n] => n.region
  | n :: rest => Region.accumulate n.region (boundingRegion rest)

/-- A merge that puts all voxels into one volume over the bounding region. -/
def mergeAll (g : SceneGraph) (_ : Bool) : Option RawVolume × Palette :=
  (some ⟨boundingRegion g.nodes,
      (g.nodes.map (fun n => match n.volume with
        | some v => v.voxels
        | none => [])).flatten⟩,
    match g.nodes with
    | [] => Palette.empty
    | n :: _ => n.palette)

def env : voxelformat.Env where
  merge := mergeAll
  splitVolume := voxelutil.splitVolume
  cropVolume := fun v => v
  shouldQuit := fun _ => false
  updateTransforms := fun g => g
  getPalette := ⟨[0xffffffff, 0xff000000]⟩
  voxformatMerge := ⟨true, 1⟩
  voxelCreatePalette := some ⟨true, 1⟩
  voxformatRGBFlattenFactor := ⟨true, 8⟩

/-- A format limited to 16 voxels per axis that stores a single volume; its
writer accepts every scene graph. -/
def singleVolumeFormat : voxelformat.Format where
  maxSize := ⟨16, 16, 16⟩
  singleVolume := true
  saveGroups := fun _ _ => true
  flattenFactor := 8

/-- A format without size limit whose writer accepts graphs with nodes. -/
def unlimitedFormat : voxelformat.Format where
  maxSize := voxelformat.Format.defaultMaxSize
  singleVolume := false
  saveGroups := fun g _ => !g.nodes.isEmpty
  flattenFactor := 8

def stream : SeekableReadStream := ⟨[1, 2, 3, 4, 5, 6, 7, 8], 2⟩

/-- A direct-RGBA format whose palette probe reads four bytes and finds nothing. -/
def rgbaFormat : voxelformat.RGBAFormat where
  maxSize := voxelformat.Format.defaultMaxSize
  singleVolume := false
  saveGroups := fun _ _ => true
  flattenFactor := 8
  loadPalette := fun _ s p => (0, s.seek (s.pos + 4), p)
  loadGroupsRGBA := fun _ s g _ => (true, s.seek (s.pos + 1), g.emplace nodeA)

/-- A nameless description that lists two extensions. -/
def descVoxQb : FormatDescription := ⟨"", ["vox", "qb"], none, 0⟩

/-- A nameless description that lists one extension. -/
def descQb : FormatDescription := ⟨"", ["qb"], none, 0⟩

def descMagica : FormatDescription := ⟨"MagicaVoxel", ["vox"], none, 0⟩

def descQubicle : FormatDescription := ⟨"Qubicle Binary", ["qb"], some (fun _ => true), 2⟩

/-- A format limited on two axes only: the y axis carries no limit. -/
def partlyLimitedFormat : voxelformat.Format where
  maxSize := ⟨16, 0, 16⟩
  singleVolume := false
  saveGroups := fun _ _ => true
  flattenFactor := 8

/-- A format limited to 16 voxels per axis that stores several volumes. -/
def chunkedFormat : voxelformat.Format where
  maxSize := ⟨16, 16, 16⟩
  singleVolume := false
  saveGroups := fun g _ => !g.nodes.isEmpty
  flattenFactor := 8

/-- A nameless description without extensions. -/
def descEmpty : FormatDescription := ⟨"", [], none, 0⟩

/-- A node 17 voxels wide with one occupied voxel in each of its two cells. -/
def nodeSplit : SceneGraphNode :=
  modelNode "split" ⟨⟨⟨0, 0, 0⟩, ⟨16, 15, 15⟩⟩, [(⟨0, 0, 0⟩, 1), (⟨16, 0, 0⟩, 2)]⟩ 3

/-- A node without volume: its region is invalid. -/
def nodeInvalid : SceneGraphNode :=
  ⟨SceneGraphNodeType.Model, "broken", none, Palette.empty, [], 0⟩

/-- The environment in which the stop signal is raised at the third poll. -/
def envStopAtTwo : voxelformat.Env :=
  { env with shouldQuit := fun n => decide (2 ≤ n) }

/-- The environment in which palette creation is registered and switched off. -/
def envPaletteOff : voxelformat.Env :=
  { env with voxelCreatePalette := some ⟨false, 0⟩ }

/-- A direct-RGBA format whose palette probe reads four bytes and finds a
palette of two colours. -/
def rgbaProbeFormat : voxelformat.RGBAFormat where
  maxSize := voxelformat.Format.defaultMaxSize
  singleVolume := false
  saveGroups := fun _ _ => true
  flattenFactor := 8
  loadPalette := fun _ s _ => (2, s.seek (s.pos + 4), ⟨[0xff102030, 0xff405060]⟩)
  loadGroupsRGBA := fun _ s g _ => (true, s.seek (s.pos + 1), g.emplace nodeA)

end Example

/-! ## Machine integer lemmas -/

theorem wrap32_of_inI32 (x : Int) (h : inI32 x) : wrap32 x = x := by
  unfold wrap32 ofU32 toU32
  unfold inI32 at h
  omega

theorem toU32_ofU32 (n : Nat) : toU32 (ofU32 n) = n % 2 ^ 32 := by
  unfold ofU32 toU32
  split <;> omega

theorem toU32_natCast (n : Nat) : toU32 (n : Int) = n % 2 ^ 32 := by
  unfold toU32
  omega

theorem inI32_ofU32 (n : Nat) : inI32 (ofU32 n) := by
  unfold inI32 ofU32
  split <;> omega

theorem land_mask_eq (u k : Nat) (hk : k ≤ 32) (hu : u < 2 ^ 32) :
    u &&& (2 ^ 32 - 1 - (2 ^ k - 1)) = 2 ^ k * (u / 2 ^ k) := by
  have hmask : 2 ^ 32 - 1 - (2 ^ k - 1) = 2 ^ k * (2 ^ (32 - k) - 1) := by
    have h1 : 2 ^ k * 2 ^ (32 - k) = 2 ^ 32 := by
      rw [← pow_add]; congr 1; omega
    have h2 : 1 ≤ 2 ^ k := Nat.one_le_two_pow
    rw [Nat.mul_sub, h1]; omega
  rw [hmask]
  apply Nat.eq_of_testBit_eq
  intro i
  rw [Nat.testBit_and, Nat.testBit_mul_pow_two, Nat.testBit_mul_pow_two,
    Nat.testBit_two_pow_sub_one, ← Nat.shiftRight_eq_div_pow, Nat.testBit_shiftRight]
  by_cases hik : k ≤ i
  · have e : k + (i - k) = i := by omega
    rw [e]
    by_cases hi : i < 32
    · have : i - k < 32 - k := by omega
      simp [hik, this]
    · have hfalse : u.testBit i = false := by
        apply Nat.testBit_lt_two_pow
        calc u < 2 ^ 32 := hu
          _ ≤ 2 ^ i := Nat.pow_le_pow_right (by decide) (by omega)
      simp [hfalse]
  · simp [hik]

theorem ofU32_align (c : Int) (k : Nat) (hk : k ≤ 30) (hc : inI32 c) :
    ofU32 (2 ^ k * (toU32 c / 2 ^ k)) = 2 ^ k * (c / 2 ^ k) := by
  unfold inI32 at hc
  unfold ofU32 toU32
  interval_cases k <;> (split <;> omega)

/-- The bit mask expression of `calcMinsMaxs` is the floor multiple. -/
theorem and32_mask_eq (c : Int) (k : Nat) (hk : k ≤ 30) (hc : inI32 c) :
    and32 c (not32 (sub32 (2 ^ k) 1)) = 2 ^ k * (c / 2 ^ k) := by
  have hpos : (1 : Int) ≤ 2 ^ k := one_le_pow₀ (by norm_num)
  have hle : (2 : Int) ^ k ≤ 2 ^ 30 := pow_le_pow_right₀ (by norm_num) hk
  have hnat : (2 : Nat) ^ k ≤ 2 ^ 30 := Nat.pow_le_pow_right (by decide) hk
  have hnat1 : 1 ≤ (2 : Nat) ^ k := Nat.one_le_two_pow
  have h1 : sub32 ((2 : Int) ^ k) 1 = 2 ^ k - 1 := by
    unfold sub32
    apply wrap32_of_inI32
    unfold inI32
    constructor <;> omega
  have hcast : ((2 : Int) ^ k - 1) = (((2 : Nat) ^ k - 1 : Nat) : Int) := by
    push_cast [hnat1]; rfl
  have h2 : toU32 ((2 : Int) ^ k - 1) = 2 ^ k - 1 := by
    rw [hcast, toU32_natCast]
    apply Nat.mod_eq_of_lt
    omega
  unfold and32 not32
  rw [h1, h2, toU32_ofU32]
  have hm : (2 ^ 32 - 1 - (2 ^ k - 1)) % 2 ^ 32 = 2 ^ 32 - 1 - (2 ^ k - 1) := by
    apply Nat.mod_eq_of_lt
    omega
  have hu : toU32 c < 2 ^ 32 := by
    unfold toU32
    omega
  rw [hm, land_mask_eq (toU32 c) k (by omega) hu]
  exact ofU32_align c k hk hc

theorem isFloorMultiple_floor (m l : Int) (hm : 0 < m) : IsFloorMultiple m l (m * (l / m)) := by
  refine ⟨Dvd.intro _ rfl, Int.mul_ediv_self_le (ne_of_gt hm), Int.lt_mul_ediv_self_add hm, ?_⟩
  rintro j ⟨t, rfl⟩ hj
  have ht : t ≤ l / m := by
    rw [Int.le_ediv_iff_mul_le hm]
    linarith [mul_comm t m]
  exact Int.mul_le_mul_of_nonneg_left ht (le_of_lt hm)

/-- Lower corner of `calcMinsMaxs` on one axis. -/
theorem mins_axis (m l : Int) (hm : IsPow2I32 m) (hl : inI32 l) :
    IsFloorMultiple m l (and32 l (not32 (sub32 m 1))) := by
  obtain ⟨k, hk, rfl⟩ := hm
  rw [and32_mask_eq l k hk hl]
  exact isFloorMultiple_floor _ l (by positivity)

/-- Both corners of `calcMinsMaxs` on one axis. -/
theorem cover_axis (m l u : Int) (hm : IsPow2I32 m) (hl : inI32 l) (hu : inI32 u)
    (hlu : l ≤ u) (hov : inI32 (and32 u (not32 (sub32 m 1)) + m)) :
    IsAlignedCover m l u (and32 l (not32 (sub32 m 1)))
      (sub32 (add32 (and32 u (not32 (sub32 m 1))) m) 1) := by
  obtain ⟨k, hk, rfl⟩ := hm
  have hpos : (0 : Int) < 2 ^ k := by positivity
  have hrange : inI32 (and32 u (not32 (sub32 (2 ^ k) 1))) := inI32_ofU32 _
  rw [and32_mask_eq l k hk hl]
  rw [and32_mask_eq u k hk hu] at hov hrange ⊢
  obtain ⟨_, hb1, _, _⟩ := isFloorMultiple_floor (2 ^ k) l hpos
  obtain ⟨_, _, ha2, _⟩ := isFloorMultiple_floor (2 ^ k) u hpos
  have hadd : add32 (2 ^ k * (u / 2 ^ k)) (2 ^ k) = 2 ^ k * (u / 2 ^ k) + 2 ^ k :=
    wrap32_of_inI32 _ hov
  have hsub : sub32 (2 ^ k * (u / 2 ^ k) + 2 ^ k) 1 = 2 ^ k * (u / 2 ^ k) + 2 ^ k - 1 := by
    apply wrap32_of_inI32
    unfold inI32 at hov hrange ⊢
    constructor <;> omega
  rw [hadd, hsub]
  have hq : l / 2 ^ k ≤ u / 2 ^ k := Int.ediv_le_ediv hpos hlu
  refine ⟨hb1, by omega, by ring, u / 2 ^ k - l / 2 ^ k + 1, by omega, by ring⟩

/-- Claim C2. `calcMinsMaxs` rounds the lower corner down to a chunk boundary:
when every axis of `maxSize` is a positive power of two, `mins` is on each axis
the largest multiple of `maxSize` that does not exceed the lower corner of the
region, also for negative coordinates; and for `maxSize = (16,16,16)` and the
lower corner `(5,20,-3)` the result is `mins = (0,16,-16)`. -/
theorem calcMinsMaxs_mins_floor (region : Region) (maxSize : IVec3)
    (hx : IsPow2I32 maxSize.x) (hy : IsPow2I32 maxSize.y) (hz : IsPow2I32 maxSize.z)
    (hlx : inI32 region.lower.x) (hly : inI32 region.lower.y) (hlz : inI32 region.lower.z) :
    (IsFloorMultiple maxSize.x region.getLowerCorner.x
        (voxelformat.calcMinsMaxs region maxSize).1.x ∧
      IsFloorMultiple maxSize.y region.getLowerCorner.y
        (voxelformat.calcMinsMaxs region maxSize).1.y ∧
      IsFloorMultiple maxSize.z region.getLowerCorner.z
        (voxelformat.calcMinsMaxs region maxSize).1.z) ∧
    ∀ upper : IVec3,
      (voxelformat.calcMinsMaxs ⟨⟨5, 20, -3⟩, upper⟩ ⟨16, 16, 16⟩).1 = ⟨0, 16, -16⟩ := by
  refine ⟨⟨mins_axis _ _ hx hlx, mins_axis _ _ hy hly, mins_axis _ _ hz hlz⟩, ?_⟩
  intro upper
  simp only [voxelformat.calcMinsMaxs, Region.getLowerCorner]
  decide

theorem calcMinsMaxs_mins_floor_witness :
    IsFloorMultiple 16 5 0 ∧ IsFloorMultiple 16 20 16 ∧ IsFloorMultiple 16 (-3) (-16) := by
  have h := calcMinsMaxs_mins_floor ⟨⟨5, 20, -3⟩, ⟨7, 21, 0⟩⟩ ⟨16, 16, 16⟩
    ⟨4, by decide, by decide⟩ ⟨4, by decide, by decide⟩ ⟨4, by decide, by decide⟩
    (by decide) (by decide) (by decide)
  exact h.1

/-- Claim C3. `calcMinsMaxs` returns a chunk-aligned bounding box of the region:
for a region with `lower ≤ upper`, a `maxSize` whose axes are positive powers of
two and coordinates on which the 32-bit addition of the code does not overflow,
on each axis `mins ≤ lower`, `upper ≤ maxs`, `maxs` is the aligned-down upper
coordinate plus `maxSize - 1`, and `maxs - mins + 1` is a positive multiple of
`maxSize`. -/
theorem calcMinsMaxs_aligned_cover (region : Region) (maxSize : IVec3)
    (hx : IsPow2I32 maxSize.x) (hy : IsPow2I32 maxSize.y) (hz : IsPow2I32 maxSize.z)
    (hlx : inI32 region.lower.x) (hly : inI32 region.lower.y) (hlz : inI32 region.lower.z)
    (hux : inI32 region.upper.x) (huy : inI32 region.upper.y) (huz : inI32 region.upper.z)
    (hvx : region.lower.x ≤ region.upper.x) (hvy : region.lower.y ≤ region.upper.y)
    (hvz : region.lower.z ≤ region.upper.z)
    (hox : inI32 (and32 region.upper.x (not32 (sub32 maxSize.x 1)) + maxSize.x))
    (hoy : inI32 (and32 region.upper.y (not32 (sub32 maxSize.y 1)) + maxSize.y))
    (hoz : inI32 (and32 region.upper.z (not32 (sub32 maxSize.z 1)) + maxSize.z)) :
    IsAlignedCover maxSize.x region.getLowerCorner.x region.getUpperCorner.x
        (voxelformat.calcMinsMaxs region maxSize).1.x
        (voxelformat.calcMinsMaxs region maxSize).2.x ∧
      IsAlignedCover maxSize.y region.getLowerCorner.y region.getUpperCorner.y
        (voxelformat.calcMinsMaxs region maxSize).1.y
        (voxelformat.calcMinsMaxs region maxSize).2.y ∧
      IsAlignedCover maxSize.z region.getLowerCorner.z region.getUpperCorner.z
        (voxelformat.calcMinsMaxs region maxSize).1.z
        (voxelformat.calcMinsMaxs region maxSize).2.z :=
  ⟨cover_axis _ _ _ hx hlx hux hvx hox, cover_axis _ _ _ hy hly huy hvy hoy,
    cover_axis _ _ _ hz hlz huz hvz hoz⟩

theorem calcMinsMaxs_aligned_cover_witness :
    IsAlignedCover 16 5 40 0 47 ∧ IsAlignedCover 8 20 21 16 23 ∧
      IsAlignedCover 4 (-3) (-1) (-4) (-1) := by
  have h := calcMinsMaxs_aligned_cover ⟨⟨5, 20, -3⟩, ⟨40, 21, -1⟩⟩ ⟨16, 8, 4⟩
    ⟨4, by decide, by decide⟩ ⟨3, by decide, by decide⟩ ⟨2, by decide, by decide⟩
    (by decide) (by decide) (by decide) (by decide) (by decide) (by decide)
    (by decide) (by decide) (by decide) (by decide) (by decide) (by decide)
  exact h

/-! ## Format::save -/

theorem allLessThanEqual_eq_false (dims maxSize : IVec3) :
    allLessThanEqual dims maxSize = false ↔ Exceeds dims maxSize := by
  unfold allLessThanEqual Exceeds
  simp only [Bool.and_eq_false_iff, decide_eq_false_iff_not, not_le]
  tauto

theorem needsSplitScan_eq_true (maxsize : IVec3) (nodes : List SceneGraphNode) :
    voxelformat.needsSplitScan maxsize nodes = true ↔
      ∃ node ∈ nodes, Exceeds node.region.getDimensionsInVoxels maxsize := by
  induction nodes with
  | nil => simp [voxelformat.needsSplitScan]
  | cons n rest ih =>
    unfold voxelformat.needsSplitScan
    by_cases h : allLessThanEqual n.region.getDimensionsInVoxels maxsize = true
    · have hn : ¬ Exceeds n.region.getDimensionsInVoxels maxsize := by
        rw [← allLessThanEqual_eq_false]; simp [h]
      simp only [h, if_true, ih, List.mem_cons, exists_eq_or_imp, hn, false_or]
    · have hn : Exceeds n.region.getDimensionsInVoxels maxsize := by
        rw [← allLessThanEqual_eq_false]; simpa using h
      simp only [h, List.mem_cons, exists_eq_or_imp, hn, true_or]
      simp

theorem needsSplitScan_eq_false (maxsize : IVec3) (nodes : List SceneGraphNode) :
    voxelformat.needsSplitScan maxsize nodes = false ↔
      ∀ node ∈ nodes, ¬ Exceeds node.region.getDimensionsInVoxels maxsize := by
  rw [← Bool.not_eq_true, needsSplitScan_eq_true]
  push_neg
  rfl

/-- Claim C1. `Format::save` fails on an unresolvable scene: when `maxSize()` is
constrained, some node has region dimensions that exceed it on some axis and
`singleVolume()` is true, `save` returns false and makes no collaborator call:
no merge, no `splitVolumes`, no `saveGroups`. -/
theorem save_fails_when_split_needed_on_single_volume (f : voxelformat.Format)
    (env : voxelformat.Env) (sceneGraph : SceneGraph) (filename : String)
    (hc : Constrained f.maxSize)
    (hex : ∃ node ∈ sceneGraph.nodes, Exceeds node.region.getDimensionsInVoxels f.maxSize)
    (hs : f.singleVolume = true) :
    f.save env sceneGraph filename = (false, []) := by
  have hscan := (needsSplitScan_eq_true f.maxSize sceneGraph.nodes).2 hex
  unfold Constrained at hc
  unfold voxelformat.Format.save
  simp [hc, hscan, hs]

theorem save_fails_when_split_needed_on_single_volume_witness :
    Example.singleVolumeFormat.save Example.env ⟨[Example.nodeA, Example.nodeWide]⟩ "out.vox" =
      (false, []) :=
  save_fails_when_split_needed_on_single_volume Example.singleVolumeFormat Example.env
    ⟨[Example.nodeA, Example.nodeWide]⟩ "out.vox" (by decide)
    ⟨Example.nodeWide, by simp, by decide⟩ rfl

/-- The single-node graph built by `Format::save` is the merged graph. -/
theorem merged_graph_built (env : voxelformat.Env) (sceneGraph : SceneGraph) :
    SceneGraph.empty.emplace
      (((SceneGraphNode.ofType SceneGraphNodeType.Model).setVolume
        (env.merge sceneGraph true).1).setPalette (env.merge sceneGraph true).2) =
      mergedGraph env sceneGraph := rfl

/-- Outcome of `Format::save` when no split is needed. -/
theorem save_without_split (f : voxelformat.Format) (env : voxelformat.Env)
    (sceneGraph : SceneGraph) (filename : String)
    (h : (if f.maxSize.x > 0 ∧ f.maxSize.y > 0 ∧ f.maxSize.z > 0 then
      voxelformat.needsSplitScan f.maxSize sceneGraph.nodes else false) = false) :
    f.save env sceneGraph filename =
      if f.singleVolume = true then
        (f.saveGroups (mergedGraph env sceneGraph) filename,
          [voxelformat.SaveEvent.merge sceneGraph,
            voxelformat.SaveEvent.saveGroups (mergedGraph env sceneGraph) filename])
      else
        (f.saveGroups sceneGraph filename,
          [voxelformat.SaveEvent.saveGroups sceneGraph filename]) := by
  unfold voxelformat.Format.save
  simp only [h, Bool.false_and, Bool.false_eq_true, if_false, merged_graph_built]

/-- Claim C4. With an unconstrained `maxSize()` (all axes negative, as the
default `(-1,-1,-1)`), `Format::save` never enters `splitVolumes` and never
fails for size reasons, whatever the node sizes: it calls `saveGroups` exactly
once, with the merged single-node graph when `singleVolume()` is true and with
the original graph otherwise, and returns the result of that call. -/
theorem save_unconstrained_never_splits (f : voxelformat.Format) (env : voxelformat.Env)
    (sceneGraph : SceneGraph) (filename : String)
    (h : f.maxSize.x < 0 ∧ f.maxSize.y < 0 ∧ f.maxSize.z < 0) :
    f.save env sceneGraph filename =
      (if f.singleVolume = true then
        (f.saveGroups (mergedGraph env sceneGraph) filename,
          [voxelformat.SaveEvent.merge sceneGraph,
            voxelformat.SaveEvent.saveGroups (mergedGraph env sceneGraph) filename])
      else
        (f.saveGroups sceneGraph filename,
          [voxelformat.SaveEvent.saveGroups sceneGraph filename])) ∧
    (voxelformat.Format.defaultMaxSize.x < 0 ∧ voxelformat.Format.defaultMaxSize.y < 0 ∧
      voxelformat.Format.defaultMaxSize.z < 0) := by
  refine ⟨save_without_split f env sceneGraph filename ?_, by decide⟩
  have : ¬ (f.maxSize.x > 0 ∧ f.maxSize.y > 0 ∧ f.maxSize.z > 0) := by omega
  simp [this]

theorem save_unconstrained_never_splits_witness :
    Example.unlimitedFormat.save Example.env ⟨[Example.nodeA, Example.nodeWide]⟩ "out.qb" =
      (true, [voxelformat.SaveEvent.saveGroups ⟨[Example.nodeA, Example.nodeWide]⟩ "out.qb"]) := by
  have h := (save_unconstrained_never_splits Example.unlimitedFormat Example.env
    ⟨[Example.nodeA, Example.nodeWide]⟩ "out.qb" (by decide)).1
  exact h

/-- Counterexample to claim C8 as stated: two nodes that each fit into
`maxSize = (16,16,16)` while their combined region is 32 voxels wide. The
single-volume format does not fail: the merged graph reaches `saveGroups`,
whose result `true` is returned. -/
theorem save_two_fitting_nodes_reaches_writer :
    Constrained Example.singleVolumeFormat.maxSize ∧
    Example.singleVolumeFormat.singleVolume = true ∧
    Exceeds (Region.accumulate Example.nodeA.region Example.nodeB.region).getDimensionsInVoxels
      Example.singleVolumeFormat.maxSize ∧
    (Example.singleVolumeFormat.save Example.env ⟨[Example.nodeA, Example.nodeB]⟩ "out.vox").1
      = true ∧
    voxelformat.SaveEvent.saveGroups
        (mergedGraph Example.env ⟨[Example.nodeA, Example.nodeB]⟩) "out.vox" ∈
      (Example.singleVolumeFormat.save Example.env ⟨[Example.nodeA, Example.nodeB]⟩ "out.vox").2 := by
  decide

/-- Claim C8, amended. On a single-volume format with constrained `maxSize`
and a scene graph of two nodes, `save` returns failure without any
collaborator call when at least one of the two nodes exceeds `maxSize` on its
own; when both nodes fit on their own, the nodes are merged and `saveGroups`
is called once with the merged graph and decides the result, whatever the size
of the combined region. -/
theorem save_two_nodes_on_single_volume (f : voxelformat.Format) (env : voxelformat.Env)
    (a b : SceneGraphNode) (filename : String)
    (hc : Constrained f.maxSize) (hs : f.singleVolume = true) :
    ((Exceeds a.region.getDimensionsInVoxels f.maxSize ∨
        Exceeds b.region.getDimensionsInVoxels f.maxSize) →
      f.save env ⟨[a, b]⟩ filename = (false, [])) ∧
    ((¬ Exceeds a.region.getDimensionsInVoxels f.maxSize ∧
        ¬ Exceeds b.region.getDimensionsInVoxels f.maxSize) →
      f.save env ⟨[a, b]⟩ filename =
        (f.saveGroups (mergedGraph env ⟨[a, b]⟩) filename,
          [voxelformat.SaveEvent.merge ⟨[a, b]⟩,
            voxelformat.SaveEvent.saveGroups (mergedGraph env ⟨[a, b]⟩) filename])) := by
  constructor
  · intro h
    have hscan : voxelformat.needsSplitScan f.maxSize [a, b] = true := by
      rw [needsSplitScan_eq_true]
      rcases h with h | h
      · exact ⟨a, by simp, h⟩
      · exact ⟨b, by simp, h⟩
    unfold Constrained at hc
    unfold voxelformat.Format.save
    simp [hc, hscan, hs]
  · rintro ⟨ha, hb⟩
    have hscan : voxelformat.needsSplitScan f.maxSize [a, b] = false := by
      rw [needsSplitScan_eq_false]
      intro n hn
      simp only [List.mem_cons, List.mem_singleton, List.not_mem_nil, or_false] at hn
      rcases hn with rfl | rfl
      · exact ha
      · exact hb
    rw [save_without_split f env ⟨[a, b]⟩ filename (by simp [hscan])]
    simp [hs]

theorem save_two_nodes_on_single_volume_witness :
    (Example.singleVolumeFormat.save Example.env ⟨[Example.nodeA, Example.nodeWide]⟩ "out.vox"
        = (false, [])) ∧
    (Example.singleVolumeFormat.save Example.env ⟨[Example.nodeA, Example.nodeB]⟩ "out.vox"
        = (true, [voxelformat.SaveEvent.merge ⟨[Example.nodeA, Example.nodeB]⟩,
            voxelformat.SaveEvent.saveGroups
              (mergedGraph Example.env ⟨[Example.nodeA, Example.nodeB]⟩) "out.vox"])) := by
  have h1 := (save_two_nodes_on_single_volume Example.singleVolumeFormat Example.env
    Example.nodeA Example.nodeWide "out.vox" (by decide) rfl).1 (Or.inr (by decide))
  have h2 := (save_two_nodes_on_single_volume Example.singleVolumeFormat Example.env
    Example.nodeA Example.nodeB "out.vox" (by decide) rfl).2 ⟨by decide, by decide⟩
  exact ⟨h1, h2⟩

/-! ## Format::splitVolumes -/

theorem copyNode_verbatim (node target : SceneGraphNode) : copyNode node target true = node := by
  cases node
  rfl

/-- One iteration of the loop on a valid node that fits. -/
theorem splitVolumesLoop_fitting_step (env : voxelformat.Env) (maxSize : IVec3) (crop : Bool)
    (node : SceneGraphNode) (rest : List SceneGraphNode) (poll : Nat) (dest : SceneGraph)
    (trace : List voxelformat.SaveEvent)
    (hstop : env.shouldQuit poll = false) (hvalid : node.region.isValid = true)
    (hfit : ¬ Exceeds node.region.getDimensionsInVoxels maxSize) :
    voxelformat.splitVolumesLoop env maxSize crop (node :: rest) poll (dest, trace) =
      voxelformat.splitVolumesLoop env maxSize crop rest (poll + 1)
        (dest.emplace node, trace) := by
  have hle : allLessThanEqual node.region.getDimensionsInVoxels maxSize = true := by
    rw [← Bool.not_eq_false, allLessThanEqual_eq_false]; exact hfit
  rw [voxelformat.splitVolumesLoop]
  simp [voxelformat.stopExecution, hstop, hvalid, hle, copyNode_verbatim]

/-- The loop on a list of valid nodes that all fit, without stop signal. -/
theorem splitVolumesLoop_all_fitting (env : voxelformat.Env) (maxSize : IVec3) (crop : Bool)
    (nodes : List SceneGraphNode) :
    ∀ (poll : Nat) (dest : SceneGraph) (trace : List voxelformat.SaveEvent),
      (∀ i, i < nodes.length → env.shouldQuit (poll + i) = false) →
      (∀ node ∈ nodes, node.region.isValid = true ∧
        ¬ Exceeds node.region.getDimensionsInVoxels maxSize) →
      voxelformat.splitVolumesLoop env maxSize crop nodes poll (dest, trace) =
        (⟨dest.nodes ++ nodes⟩, trace) := by
  induction nodes with
  | nil =>
    intro poll dest trace _ _
    simp [voxelformat.splitVolumesLoop]
  | cons n rest ih =>
    intro poll dest trace hq hall
    have hn := hall n (by simp)
    have h0 : env.shouldQuit poll = false := by simpa using hq 0 (by simp)
    rw [splitVolumesLoop_fitting_step env maxSize crop n rest poll dest trace h0 hn.1 hn.2]
    rw [ih (poll + 1) (dest.emplace n) trace]
    · simp [SceneGraph.emplace]
    · intro i hi
      have := hq (i + 1) (by simpa using hi)
      rw [← this]; congr 1; omega
    · intro m hm
      exact hall m (by simp [hm])

/-- Claim C5. `splitVolumes` is the identity when no split is needed. For a
source node with a valid region whose dimensions are within `maxSize` on all
axes, and no stop signal at its poll, one loop iteration adds exactly one node
to the destination graph, which is a verbatim copy (same region, voxel content
and parent), and records no call of the volume splitter. Hence a source graph
whose nodes are all valid and fit yields the same nodes in the same order and
no splitter call at all. -/
theorem splitVolumes_identity_when_fitting (env : voxelformat.Env) (maxSize : IVec3)
    (crop : Bool) :
    (∀ (node : SceneGraphNode) (rest : List SceneGraphNode) (poll : Nat) (dest : SceneGraph)
        (trace : List voxelformat.SaveEvent),
      env.shouldQuit poll = false → node.region.isValid = true →
      ¬ Exceeds node.region.getDimensionsInVoxels maxSize →
      copyNode node SceneGraphNode.new true = node ∧
      voxelformat.splitVolumesLoop env maxSize crop (node :: rest) poll (dest, trace) =
        voxelformat.splitVolumesLoop env maxSize crop rest (poll + 1)
          (dest.emplace node, trace)) ∧
    (∀ (src dest : SceneGraph),
      (∀ i, i < src.size → env.shouldQuit i = false) →
      (∀ node ∈ src.nodes, node.region.isValid = true ∧
        ¬ Exceeds node.region.getDimensionsInVoxels maxSize) →
      voxelformat.splitVolumes env src dest maxSize crop = (⟨dest.nodes ++ src.nodes⟩, []) ∧
      (voxelformat.splitVolumes env src SceneGraph.empty maxSize crop).1 = src) := by
  constructor
  · intro node rest poll dest trace hstop hvalid hfit
    exact ⟨copyNode_verbatim _ _,
      splitVolumesLoop_fitting_step env maxSize crop node rest poll dest trace hstop hvalid hfit⟩
  · intro src dest hq hall
    have key : ∀ d : SceneGraph,
        voxelformat.splitVolumes env src d maxSize crop = (⟨d.nodes ++ src.nodes⟩, []) := by
      intro d
      unfold voxelformat.splitVolumes
      apply splitVolumesLoop_all_fitting env maxSize crop src.nodes 0 d []
      · intro i hi
        simpa using hq i hi
      · exact hall
    refine ⟨key dest, ?_⟩
    rw [key SceneGraph.empty]
    cases src
    simp [SceneGraph.empty]

theorem splitVolumes_identity_when_fitting_witness :
    voxelformat.splitVolumes Example.env ⟨[Example.nodeA, Example.nodeB]⟩ SceneGraph.empty
      ⟨16, 16, 16⟩ false = (⟨[Example.nodeA, Example.nodeB]⟩, []) := by
  have h := ((splitVolumes_identity_when_fitting Example.env ⟨16, 16, 16⟩ false).2
    ⟨[Example.nodeA, Example.nodeB]⟩ SceneGraph.empty (fun _ _ => rfl)
    (by decide)).1
  exact h

/-! ## FormatDescription -/

theorem String.isEmpty_eq_false_iff (s : String) : s.isEmpty = false ↔ s ≠ "" := by
  rw [← Bool.not_eq_true, String.isEmpty_iff]

/-- Claim C6. Equality of format descriptions is decided by the name alone when
both names are non-empty: `a == b` holds exactly when the names are equal,
whatever the extensions, the `isA` predicate and the flags are; in particular
it is false for non-empty, distinct names. -/
theorem formatDescription_eq_by_name (a b : FormatDescription)
    (ha : a.name ≠ "") (hb : b.name ≠ "") :
    (a.eq b = true ↔ a.name = b.name) ∧
    (∀ (exts1 exts2 : List String) (isA1 isA2 : Option (Nat → Bool)) (flags1 flags2 : Nat),
      FormatDescription.eq ⟨a.name, exts1, isA1, flags1⟩ ⟨b.name, exts2, isA2, flags2⟩ =
        a.eq b) ∧
    (a.name ≠ b.name → a.eq b = false) := by
  have ha1 := (String.isEmpty_eq_false_iff a.name).2 ha
  have hb1 := (String.isEmpty_eq_false_iff b.name).2 hb
  have key : ∀ x y : FormatDescription, x.name = a.name → y.name = b.name →
      x.eq y = (a.name == b.name) := by
    intro x y hx hy
    unfold FormatDescription.eq
    simp [hx, hy, ha1, hb1]
  refine ⟨?_, ?_, ?_⟩
  · rw [key a b rfl rfl]; simp
  · intro e1 e2 i1 i2 f1 f2
    exact (key ⟨a.name, e1, i1, f1⟩ ⟨b.name, e2, i2, f2⟩ rfl rfl).trans (key a b rfl rfl).symm
  · intro hne
    rw [key a b rfl rfl]; simpa using hne

theorem formatDescription_eq_by_name_witness :
    Example.descMagica.eq Example.descQubicle = false := by
  have h := (formatDescription_eq_by_name Example.descMagica Example.descQubicle
    (by decide) (by decide)).2.2 (by decide)
  exact h

/-- Claim C7. When one of the two names is empty, `a == b` holds exactly when
`b` has at least one extension and the first extension of `b` is matched
(ignoring case) by the extension set of `a`; the other extensions of `b` are
not consulted, and the relation is not symmetric: some `a`, `b` have `a == b`
true and `b == a` false. -/
theorem formatDescription_eq_extension_fallback :
    (∀ a b : FormatDescription, (a.name = "" ∨ b.name = "") →
      (a.eq b = true ↔ ∃ first rest, b.exts = first :: rest ∧
        ∃ e ∈ a.exts, toLower e = toLower first)) ∧
    (∀ (a b : FormatDescription) (first : String) (rest1 rest2 : List String),
      (a.name = "" ∨ b.name = "") →
      a.eq ⟨b.name, first :: rest1, b.isA, b.flags⟩ =
        a.eq ⟨b.name, first :: rest2, b.isA, b.flags⟩) ∧
    (∃ a b : FormatDescription, a.name = "" ∧ b.name = "" ∧
      a.eq b = true ∧ b.eq a = false) := by
  have hcond : ∀ a b : FormatDescription, (a.name = "" ∨ b.name = "") →
      (a.name.isEmpty || b.name.isEmpty) = true := by
    intro a b h
    rcases h with h | h
    · simp [(String.isEmpty_iff a.name).2 h]
    · simp [(String.isEmpty_iff b.name).2 h]
  refine ⟨?_, ?_, ?_⟩
  · intro a b h
    unfold FormatDescription.eq
    rw [if_pos (hcond a b h)]
    cases hb : b.exts with
    | nil => simp
    | cons first rest =>
      simp [FormatDescription.matchesExtension]
  · intro a b first rest1 rest2 h
    have h1 := hcond a b h
    simp only [FormatDescription.eq, h1, if_true]
  · exact ⟨Example.descVoxQb, Example.descQb, rfl, rfl, by decide, by decide⟩

theorem formatDescription_eq_extension_fallback_witness :
    Example.descVoxQb.eq Example.descQb = true := by
  have h := (formatDescription_eq_extension_fallback.1 Example.descVoxQb Example.descQb
    (Or.inl rfl)).2 ⟨"qb", [], rfl, "qb", by decide, by decide⟩
  exact h

/-! ## Loading -/

/-- Shape of the outcome of `RGBAFormat::loadGroups` after the palette selection. -/
theorem rgba_loadGroups_shape (f : voxelformat.RGBAFormat) (env : voxelformat.Env)
    (filename : String) (stream : SeekableReadStream) (sceneGraph : SceneGraph) :
    (f.loadGroups env filename stream sceneGraph).trace =
      (f.selectPalette env filename stream).2.2 ++
        voxelformat.LoadEvent.loadGroupsRGBA (f.selectPalette env filename stream).1
          (f.selectPalette env filename stream).2.1 ::
        (if (f.loadGroups env filename stream sceneGraph).ok = true
          then [voxelformat.LoadEvent.updateTransforms] else []) ∧
    (f.loadGroups env filename stream sceneGraph).ok =
      (f.loadGroupsRGBA filename (f.selectPalette env filename stream).1 sceneGraph
        (f.selectPalette env filename stream).2.1).1 := by
  unfold voxelformat.RGBAFormat.loadGroups
  cases hr : (f.loadGroupsRGBA filename (f.selectPalette env filename stream).1 sceneGraph
      (f.selectPalette env filename stream).2.1).1 <;> simp [hr]

/-- Claim C9. The embedded-palette probe of `RGBAFormat::loadGroups` is
non-destructive. When palette creation is requested, `loadPalette` is called
on the entry stream, then the stream is sought back to the position recorded
before the probe, whatever the probe returned and wherever it left the cursor,
so that `loadGroupsRGBA` starts at the entry position; the palette handed to
`loadGroupsRGBA` is the process-wide default palette when the probe returns 0
and the probed palette otherwise. -/
theorem rgba_probe_is_non_destructive (f : voxelformat.RGBAFormat) (env : voxelformat.Env)
    (filename : String) (stream : SeekableReadStream) (sceneGraph : SceneGraph)
    (h : voxelformat.createPalette env = true) :
    ∃ (decoderStream : SeekableReadStream) (palette : Palette)
        (tail : List voxelformat.LoadEvent),
      (f.loadGroups env filename stream sceneGraph).trace =
        [voxelformat.LoadEvent.loadPalette stream Palette.empty,
          voxelformat.LoadEvent.seek stream.pos,
          voxelformat.LoadEvent.loadGroupsRGBA decoderStream palette] ++ tail ∧
      decoderStream = (f.loadPalette filename stream Palette.empty).2.1.seek stream.pos ∧
      decoderStream.pos = stream.pos ∧
      ((f.loadPalette filename stream Palette.empty).1 = 0 → palette = env.getPalette) ∧
      ((f.loadPalette filename stream Palette.empty).1 ≠ 0 →
        palette = (f.loadPalette filename stream Palette.empty).2.2) ∧
      (f.loadGroups env filename stream sceneGraph).ok =
        (f.loadGroupsRGBA filename decoderStream sceneGraph palette).1 := by
  have hsel : f.selectPalette env filename stream =
      ((f.loadPalette filename stream Palette.empty).2.1.seek stream.pos,
        (if (f.loadPalette filename stream Palette.empty).1 ≤ 0 then env.getPalette
          else (f.loadPalette filename stream Palette.empty).2.2),
        [voxelformat.LoadEvent.loadPalette stream Palette.empty,
          voxelformat.LoadEvent.seek stream.pos]) := by
    unfold voxelformat.RGBAFormat.selectPalette
    rw [if_pos h]
  have hshape := rgba_loadGroups_shape f env filename stream sceneGraph
  have htrace : (f.selectPalette env filename stream).2.2 =
      [voxelformat.LoadEvent.loadPalette stream Palette.empty,
        voxelformat.LoadEvent.seek stream.pos] := by rw [hsel]
  refine ⟨(f.selectPalette env filename stream).1, (f.selectPalette env filename stream).2.1,
    (if (f.loadGroups env filename stream sceneGraph).ok = true
      then [voxelformat.LoadEvent.updateTransforms] else []), ?_, ?_, ?_, ?_, ?_, hshape.2⟩
  · rw [hshape.1, htrace]
    rfl
  · rw [hsel]
  · rw [hsel]
    rfl
  · intro h0
    rw [hsel]
    simp [h0]
  · intro h0
    rw [hsel]
    simp [h0]

theorem rgba_probe_is_non_destructive_witness :
    ∃ (decoderStream : SeekableReadStream) (palette : Palette)
        (tail : List voxelformat.LoadEvent),
      (Example.rgbaFormat.loadGroups Example.env "in.png" Example.stream SceneGraph.empty).trace =
        [voxelformat.LoadEvent.loadPalette Example.stream Palette.empty,
          voxelformat.LoadEvent.seek 2,
          voxelformat.LoadEvent.loadGroupsRGBA decoderStream palette] ++ tail ∧
      decoderStream.pos = 2 ∧ palette = Example.env.getPalette := by
  obtain ⟨d, p, t, h1, _, h3, h4, _, _⟩ := rgba_probe_is_non_destructive Example.rgbaFormat
    Example.env "in.png" Example.stream SceneGraph.empty rfl
  exact ⟨d, p, t, h1, h3, h4 rfl⟩

/-- Claim C10. `Format::load` returns exactly the result of `loadGroups`. For
both group loaders of `Format.cpp` the returned flag is the flag of the codec
routine (`loadGroupsPalette`, `loadGroupsRGBA`); on success the last two calls
are the codec routine followed by `updateTransforms`, and the resulting scene
graph is the recomputed graph of the codec routine; on failure of the codec
routine `load` returns failure and `updateTransforms` is not called. -/
theorem load_delegates_then_normalizes (l : voxelformat.Loader) (env : voxelformat.Env)
    (filename : String) (stream : SeekableReadStream) (sceneGraph : SceneGraph) :
    voxelformat.Format.load l env filename stream sceneGraph =
      l.loadGroups env filename stream sceneGraph ∧
    (voxelformat.Format.load l env filename stream sceneGraph).ok =
      (codecResult l env filename stream sceneGraph).1 ∧
    ((voxelformat.Format.load l env filename stream sceneGraph).ok = true →
      (voxelformat.Format.load l env filename stream sceneGraph).sceneGraph =
        env.updateTransforms (codecResult l env filename stream sceneGraph).2 ∧
      ∃ (before : List voxelformat.LoadEvent) (codec : voxelformat.LoadEvent),
        codec.isCodecLoader = true ∧
        (voxelformat.Format.load l env filename stream sceneGraph).trace =
          before ++ [codec, voxelformat.LoadEvent.updateTransforms] ∧
        voxelformat.LoadEvent.updateTransforms ∉ before) ∧
    ((codecResult l env filename stream sceneGraph).1 = false →
      (voxelformat.Format.load l env filename stream sceneGraph).ok = false ∧
      voxelformat.LoadEvent.updateTransforms ∉
        (voxelformat.Format.load l env filename stream sceneGraph).trace) := by
  cases l with
  | palette f =>
    simp only [voxelformat.Format.load, voxelformat.Loader.loadGroups, codecResult,
      voxelformat.PaletteFormat.loadGroups]
    cases hr : (f.loadGroupsPalette filename stream sceneGraph Palette.empty).1
    · simp
    · simp only [Bool.not_true, Bool.false_eq_true, if_false, true_and, forall_true_left]
      refine ⟨⟨[], voxelformat.LoadEvent.loadGroupsPalette stream Palette.empty,
        rfl, rfl, by simp⟩, by simp⟩
  | rgba f =>
    simp only [voxelformat.Format.load, voxelformat.Loader.loadGroups, codecResult,
      voxelformat.RGBAFormat.loadGroups]
    have hsel : voxelformat.LoadEvent.updateTransforms ∉
        (f.selectPalette env filename stream).2.2 := by
      unfold voxelformat.RGBAFormat.selectPalette
      by_cases hc : voxelformat.createPalette env = true
      · simp [hc]
      · simp [hc]
    cases hr : (f.loadGroupsRGBA filename (f.selectPalette env filename stream).1 sceneGraph
        (f.selectPalette env filename stream).2.1).1
    · simp [hsel]
    · simp only [Bool.not_true, Bool.false_eq_true, if_false, true_and, forall_true_left]
      refine ⟨⟨(f.selectPalette env filename stream).2.2,
        voxelformat.LoadEvent.loadGroupsRGBA (f.selectPalette env filename stream).1
          (f.selectPalette env filename stream).2.1, rfl, rfl, hsel⟩, by simp⟩

/-! ## The loop of splitVolumes, node by node -/

/-- Without cropping, the inner loop appends one node per sub-volume. -/
theorem emplaceSplit_no_crop (env : voxelformat.Env) (node : SceneGraphNode)
    (vols : List RawVolume) :
    ∀ (dest : SceneGraph) (trace : List voxelformat.SaveEvent),
      voxelformat.emplaceSplit env node false vols (dest, trace) =
        (⟨dest.nodes ++ vols.map
          (fun v => (copyNode node SceneGraphNode.new false).setVolume (some v))⟩, trace) := by
  induction vols with
  | nil =>
    intro dest trace
    simp [voxelformat.emplaceSplit]
  | cons v rest ih =>
    intro dest trace
    rw [voxelformat.emplaceSplit]
    simp only [Bool.false_eq_true, if_false]
    rw [ih]
    simp [SceneGraph.emplace]

/-- The inner loop only adds calls of the volume utilities to the trace. -/
theorem emplaceSplit_trace (env : voxelformat.Env) (node : SceneGraphNode) (crop : Bool)
    (vols : List RawVolume) :
    ∀ (dest : SceneGraph) (trace : List voxelformat.SaveEvent),
      ∀ e ∈ (voxelformat.emplaceSplit env node crop vols (dest, trace)).2,
        e ∈ trace ∨ isSplitter e = true := by
  induction vols with
  | nil =>
    intro dest trace e he
    simp [voxelformat.emplaceSplit] at he
    exact Or.inl he
  | cons v rest ih =>
    intro dest trace e he
    rw [voxelformat.emplaceSplit] at he
    rcases ih _ _ e he with h | h
    · cases crop
      · simp at h
        exact Or.inl h
      · simp only [if_true, List.mem_append, List.mem_singleton] at h
        rcases h with h | h
        · exact Or.inl h
        · exact Or.inr (by rw [h]; rfl)
    · exact Or.inr h

/-- One iteration of the loop when the stop signal is not set. -/
theorem splitVolumesLoop_step (env : voxelformat.Env) (maxSize : IVec3) (crop : Bool)
    (node : SceneGraphNode) (rest : List SceneGraphNode) (poll : Nat)
    (acc : SceneGraph × List voxelformat.SaveEvent) (hstop : env.shouldQuit poll = false) :
    voxelformat.splitVolumesLoop env maxSize crop (node :: rest) poll acc =
      voxelformat.splitVolumesLoop env maxSize crop rest (poll + 1)
        (processNode env maxSize crop node acc) := by
  obtain ⟨dest, trace⟩ := acc
  rw [voxelformat.splitVolumesLoop]
  unfold processNode
  simp only [voxelformat.stopExecution, hstop, Bool.false_eq_true, if_false]
  by_cases hv : node.region.isValid = true
  · by_cases hf : allLessThanEqual node.region.getDimensionsInVoxels maxSize = true
    · simp [hv, hf, copyNode_verbatim]
    · simp [hv, hf]
  · simp [hv]

/-- The loop ends when the stop signal is set. -/
theorem splitVolumesLoop_stop (env : voxelformat.Env) (maxSize : IVec3) (crop : Bool)
    (node : SceneGraphNode) (rest : List SceneGraphNode) (poll : Nat)
    (acc : SceneGraph × List voxelformat.SaveEvent) (hstop : env.shouldQuit poll = true) :
    voxelformat.splitVolumesLoop env maxSize crop (node :: rest) poll acc = acc := by
  obtain ⟨dest, trace⟩ := acc
  rw [voxelformat.splitVolumesLoop]
  simp [voxelformat.stopExecution, hstop]

theorem processNode_trace (env : voxelformat.Env) (maxSize : IVec3) (crop : Bool)
    (node : SceneGraphNode) (acc : SceneGraph × List voxelformat.SaveEvent) :
    ∀ e ∈ (processNode env maxSize crop node acc).2, e ∈ acc.2 ∨ isSplitter e = true := by
  intro e he
  unfold processNode at he
  split at he
  · exact Or.inl he
  · split at he
    · exact Or.inl he
    · rcases emplaceSplit_trace env node crop _ _ _ e he with h | h
      · simp only [List.mem_append, List.mem_singleton] at h
        rcases h with h | h
        · exact Or.inl h
        · exact Or.inr (by rw [h]; rfl)
      · exact Or.inr h

/-- The loop only adds calls of the volume utilities to the trace. -/
theorem splitVolumesLoop_trace (env : voxelformat.Env) (maxSize : IVec3) (crop : Bool)
    (nodes : List SceneGraphNode) :
    ∀ (poll : Nat) (acc : SceneGraph × List voxelformat.SaveEvent),
      ∀ e ∈ (voxelformat.splitVolumesLoop env maxSize crop nodes poll acc).2,
        e ∈ acc.2 ∨ isSplitter e = true := by
  induction nodes with
  | nil =>
    intro poll acc e he
    obtain ⟨dest, trace⟩ := acc
    simp [voxelformat.splitVolumesLoop] at he
    exact Or.inl he
  | cons n rest ih =>
    intro poll acc e he
    by_cases hstop : env.shouldQuit poll = true
    · rw [splitVolumesLoop_stop env maxSize crop n rest poll acc hstop] at he
      exact Or.inl he
    · rw [splitVolumesLoop_step env maxSize crop n rest poll acc (by simpa using hstop)] at he
      rcases ih _ _ e he with h | h
      · exact processNode_trace env maxSize crop n acc e h
      · exact Or.inr h

theorem splitVolumes_trace (env : voxelformat.Env) (src dest : SceneGraph) (maxSize : IVec3)
    (crop : Bool) :
    ∀ e ∈ (voxelformat.splitVolumes env src dest maxSize crop).2, isSplitter e = true := by
  intro e he
  unfold voxelformat.splitVolumes at he
  rcases splitVolumesLoop_trace env maxSize crop src.nodes 0 (dest, []) e he with h | h
  · simp at h
  · exact h

/-! ## Format::save: merge, pass-through and split -/

/-- Outcome of `Format::save` when a split is needed on a format that stores
several volumes. -/
theorem save_with_split (f : voxelformat.Format) (env : voxelformat.Env)
    (sceneGraph : SceneGraph) (filename : String) (hs : f.singleVolume = false)
    (hc : Constrained f.maxSize)
    (hscan : voxelformat.needsSplitScan f.maxSize sceneGraph.nodes = true) :
    f.save env sceneGraph filename =
      (f.saveGroups (voxelformat.splitVolumes env sceneGraph SceneGraph.empty f.maxSize false).1
          filename,
        [voxelformat.SaveEvent.splitVolumes sceneGraph f.maxSize false] ++
          (voxelformat.splitVolumes env sceneGraph SceneGraph.empty f.maxSize false).2 ++
          [voxelformat.SaveEvent.saveGroups
            (voxelformat.splitVolumes env sceneGraph SceneGraph.empty f.maxSize false).1
            filename]) := by
  unfold Constrained at hc
  unfold voxelformat.Format.save
  simp [hc, hscan, hs]

/-- Claim C12. `Format::save` merges for single-volume formats: when
`singleVolume()` is true and no node exceeds a constrained `maxSize`, the only
calls are the merge of the scene graph and one `saveGroups` call whose argument
is the newly built graph with exactly one model node carrying the merged volume
and palette; `splitVolumes` is not entered and the result of `saveGroups` is
returned. -/
theorem save_merges_for_single_volume (f : voxelformat.Format) (env : voxelformat.Env)
    (sceneGraph : SceneGraph) (filename : String) (hs : f.singleVolume = true)
    (hc : Constrained f.maxSize)
    (hfit : ∀ node ∈ sceneGraph.nodes, ¬ Exceeds node.region.getDimensionsInVoxels f.maxSize) :
    f.save env sceneGraph filename =
      (f.saveGroups (mergedGraph env sceneGraph) filename,
        [voxelformat.SaveEvent.merge sceneGraph,
          voxelformat.SaveEvent.saveGroups (mergedGraph env sceneGraph) filename]) ∧
    (∃ n : SceneGraphNode, (mergedGraph env sceneGraph).nodes = [n] ∧
      n.type = SceneGraphNodeType.Model ∧ n.volume = (env.merge sceneGraph true).1 ∧
      n.palette = (env.merge sceneGraph true).2) ∧
    ((f.save env sceneGraph filename).2.filter isSaveGroups).length = 1 ∧
    (∀ e ∈ (f.save env sceneGraph filename).2, isSplitVolumes e = false) ∧
    (∀ g name, voxelformat.SaveEvent.saveGroups g name ∈ (f.save env sceneGraph filename).2 →
      g = mergedGraph env sceneGraph) := by
  have hscan := (needsSplitScan_eq_false f.maxSize sceneGraph.nodes).2 hfit
  have hsave := save_without_split f env sceneGraph filename (by simp [hscan])
  rw [if_pos hs] at hsave
  refine ⟨hsave, ⟨_, rfl, rfl, rfl, rfl⟩, ?_, ?_, ?_⟩
  · rw [hsave]; rfl
  · rw [hsave]
    intro e he
    simp only [List.mem_cons, List.mem_singleton, List.not_mem_nil, or_false] at he
    rcases he with rfl | rfl <;> rfl
  · rw [hsave]
    intro g name he
    simp only [List.mem_cons, List.mem_singleton, List.not_mem_nil, or_false] at he
    rcases he with he | he
    · cases he
    · cases he
      rfl

theorem save_merges_for_single_volume_witness :
    Example.singleVolumeFormat.save Example.env ⟨[Example.nodeA, Example.nodeB]⟩ "out.vox" =
      (true, [voxelformat.SaveEvent.merge ⟨[Example.nodeA, Example.nodeB]⟩,
        voxelformat.SaveEvent.saveGroups
          (mergedGraph Example.env ⟨[Example.nodeA, Example.nodeB]⟩) "out.vox"]) := by
  have h := (save_merges_for_single_volume Example.singleVolumeFormat Example.env
    ⟨[Example.nodeA, Example.nodeB]⟩ "out.vox" rfl (by decide) (by decide)).1
  exact h

/-- Claim C15. `Format::save` on a format that stores several volumes
(`singleVolume()` false) with a constrained `maxSize`: when no node exceeds
`maxSize` the only call is `saveGroups` with the original graph; when some
node exceeds it the calls are `splitVolumes(sceneGraph, maxsize)` with crop
disabled, the volume utility calls made by it, and one `saveGroups` call with
the graph that `splitVolumes` produced. In both cases the result of
`saveGroups` is returned and no merge happens. -/
theorem save_passes_through_or_splits (f : voxelformat.Format) (env : voxelformat.Env)
    (sceneGraph : SceneGraph) (filename : String) (hs : f.singleVolume = false)
    (hc : Constrained f.maxSize) :
    ((∀ node ∈ sceneGraph.nodes, ¬ Exceeds node.region.getDimensionsInVoxels f.maxSize) →
      f.save env sceneGraph filename =
        (f.saveGroups sceneGraph filename,
          [voxelformat.SaveEvent.saveGroups sceneGraph filename])) ∧
    ((∃ node ∈ sceneGraph.nodes, Exceeds node.region.getDimensionsInVoxels f.maxSize) →
      f.save env sceneGraph filename =
        (f.saveGroups
            (voxelformat.splitVolumes env sceneGraph SceneGraph.empty f.maxSize false).1 filename,
          [voxelformat.SaveEvent.splitVolumes sceneGraph f.maxSize false] ++
            (voxelformat.splitVolumes env sceneGraph SceneGraph.empty f.maxSize false).2 ++
            [voxelformat.SaveEvent.saveGroups
              (voxelformat.splitVolumes env sceneGraph SceneGraph.empty f.maxSize false).1
              filename]) ∧
      ((f.save env sceneGraph filename).2.filter isSaveGroups).length = 1 ∧
      ((f.save env sceneGraph filename).2.filter isSplitVolumes).length = 1 ∧
      (∀ e ∈ (f.save env sceneGraph filename).2, isMerge e = false)) := by
  constructor
  · intro hfit
    have hscan := (needsSplitScan_eq_false f.maxSize sceneGraph.nodes).2 hfit
    have hsave := save_without_split f env sceneGraph filename (by simp [hscan])
    rw [hsave]
    simp [hs]
  · intro hex
    have hscan := (needsSplitScan_eq_true f.maxSize sceneGraph.nodes).2 hex
    have hsave := save_with_split f env sceneGraph filename hs hc hscan
    have htr := splitVolumes_trace env sceneGraph SceneGraph.empty f.maxSize false
    have hnone : ∀ (p : voxelformat.SaveEvent → Bool),
        (∀ e, isSplitter e = true → p e = false) →
        (voxelformat.splitVolumes env sceneGraph SceneGraph.empty f.maxSize false).2.filter p
          = [] := by
      intro p hp
      rw [List.filter_eq_nil_iff]
      intro e he
      simp [hp e (htr e he)]
    have h1 := hnone isSaveGroups (by intro e; cases e <;> simp [isSplitter, isSaveGroups])
    have h2 := hnone isSplitVolumes (by intro e; cases e <;> simp [isSplitter, isSplitVolumes])
    refine ⟨hsave, ?_, ?_, ?_⟩
    · rw [hsave]
      simp [List.filter_append, h1, isSaveGroups, List.filter_cons]
    · rw [hsave]
      simp [List.filter_append, h2, isSplitVolumes, List.filter_cons]
    · rw [hsave]
      intro e he
      simp only [List.mem_append, List.mem_singleton, List.mem_cons, List.not_mem_nil,
        or_false] at he
      rcases he with (rfl | he) | rfl
      · rfl
      · have := htr e he
        cases e <;> simp_all [isSplitter, isMerge]
      · rfl

/-! ## The cells of the volume splitter -/

theorem mem_axisSteps (lo hi m x : Int) :
    x ∈ voxelutil.axisSteps lo hi m ↔
      ∃ i : Nat, (i : Int) < (hi - lo) / m + 1 ∧ x = lo + (i : Int) * m := by
  unfold voxelutil.axisSteps
  simp only [List.mem_map, List.mem_range]
  constructor
  · rintro ⟨i, hi1, rfl⟩
    exact ⟨i, by omega, rfl⟩
  · rintro ⟨i, hi1, rfl⟩
    exact ⟨i, by omega, rfl⟩

theorem mem_axisSteps_aligned (m a b x : Int) (hm : 0 < m) (hab : a ≤ b) :
    x ∈ voxelutil.axisSteps (m * a) (m * b + m - 1) m ↔ ∃ q : Int, a ≤ q ∧ q ≤ b ∧ x = m * q := by
  have hcount : (m * b + m - 1 - m * a) / m + 1 = b - a + 1 := by
    have h1 : m * b + m - 1 - m * a = (m - 1) + m * (b - a) := by ring
    rw [h1, Int.add_mul_ediv_left _ _ (ne_of_gt hm),
      Int.ediv_eq_zero_of_lt (by omega) (by omega)]
    ring
  rw [mem_axisSteps, hcount]
  constructor
  · rintro ⟨i, hi1, rfl⟩
    exact ⟨a + i, by omega, by omega, by ring⟩
  · rintro ⟨q, h1, h2, rfl⟩
    refine ⟨(q - a).toNat, by omega, ?_⟩
    have : (((q - a).toNat : Nat) : Int) = q - a := Int.toNat_of_nonneg (by omega)
    rw [this]; ring

/-- The two values that `calcMinsMaxs` computes on one axis. -/
theorem axis_values (m l u : Int) (h : AxisInput m l u) :
    and32 l (not32 (sub32 m 1)) = m * (l / m) ∧
    sub32 (add32 (and32 u (not32 (sub32 m 1))) m) 1 = m * (u / m) + m - 1 ∧
    inI32 (m * (l / m)) ∧ inI32 (m * (u / m) + m) ∧ 0 < m ∧ m ≤ 2 ^ 30 := by
  obtain ⟨⟨k, hk, rfl⟩, hl, hu, hle, hov⟩ := h
  have hpos : (0 : Int) < 2 ^ k := by positivity
  have hle30 : (2 : Int) ^ k ≤ 2 ^ 30 := pow_le_pow_right₀ (by norm_num) hk
  have hrl : inI32 (and32 l (not32 (sub32 (2 ^ k) 1))) := inI32_ofU32 _
  have hru : inI32 (and32 u (not32 (sub32 (2 ^ k) 1))) := inI32_ofU32 _
  rw [and32_mask_eq l k hk hl] at hrl ⊢
  rw [and32_mask_eq u k hk hu] at hov hru ⊢
  have hadd : add32 (2 ^ k * (u / 2 ^ k)) (2 ^ k) = 2 ^ k * (u / 2 ^ k) + 2 ^ k :=
    wrap32_of_inI32 _ hov
  have hsub : sub32 (2 ^ k * (u / 2 ^ k) + 2 ^ k) 1 = 2 ^ k * (u / 2 ^ k) + 2 ^ k - 1 := by
    apply wrap32_of_inI32
    unfold inI32 at hov hru ⊢
    constructor <;> omega
  rw [hadd, hsub]
  exact ⟨rfl, rfl, hrl, hov, hpos, hle30⟩

/-- Membership in the cell origins of one axis. -/
theorem mem_axis_origins (m l u x : Int) (h : AxisInput m l u) :
    x ∈ voxelutil.axisSteps (and32 l (not32 (sub32 m 1)))
        (sub32 (add32 (and32 u (not32 (sub32 m 1))) m) 1) m ↔
      ∃ q : Int, l / m ≤ q ∧ q ≤ u / m ∧ x = m * q := by
  obtain ⟨h1, h2, _, _, hpos, _⟩ := axis_values m l u h
  rw [h1, h2]
  exact mem_axisSteps_aligned m (l / m) (u / m) x hpos (Int.ediv_le_ediv hpos h.le)

/-- The block anchored at a cell origin spans exactly `m` coordinates. -/
theorem axis_block (m l u q : Int) (h : AxisInput m l u) (h1 : l / m ≤ q) (h2 : q ≤ u / m) :
    sub32 (add32 (m * q) m) 1 = m * q + m - 1 ∧
    add32 (sub32 (m * q + m - 1) (m * q)) 1 = m := by
  obtain ⟨_, _, hrl, hru, hpos, hle30⟩ := axis_values m l u h
  have hq1 : m * (l / m) ≤ m * q := Int.mul_le_mul_of_nonneg_left h1 (le_of_lt hpos)
  have hq2 : m * q ≤ m * (u / m) := Int.mul_le_mul_of_nonneg_left h2 (le_of_lt hpos)
  have hadd : add32 (m * q) m = m * q + m := by
    apply wrap32_of_inI32
    unfold inI32 at hrl hru ⊢
    constructor <;> omega
  have hsub : sub32 (m * q + m) 1 = m * q + m - 1 := by
    apply wrap32_of_inI32
    unfold inI32 at hrl hru ⊢
    constructor <;> omega
  have hd1 : sub32 (m * q + m - 1) (m * q) = m - 1 := by
    have e : m * q + m - 1 - m * q = m - 1 := by ring
    unfold sub32
    rw [e]
    apply wrap32_of_inI32
    unfold inI32
    constructor <;> omega
  have hd2 : add32 (m - 1) 1 = m := by
    have e : m - 1 + 1 = m := by ring
    unfold add32
    rw [e]
    apply wrap32_of_inI32
    unfold inI32
    constructor <;> omega
  rw [hadd, hsub, hd1, hd2]
  exact ⟨rfl, rfl⟩

/-- A coordinate of the region lies in the cell of its floor quotient. -/
theorem axis_cover (m l u p : Int) (h : AxisInput m l u) (hl : l ≤ p) (hu : p ≤ u) :
    l / m ≤ p / m ∧ p / m ≤ u / m ∧ m * (p / m) ≤ p ∧ p ≤ m * (p / m) + m - 1 := by
  obtain ⟨_, _, _, _, hpos, _⟩ := axis_values m l u h
  have h3 : m * (p / m) ≤ p := Int.mul_ediv_self_le (ne_of_gt hpos)
  have h4 : p < m * (p / m) + m := Int.lt_mul_ediv_self_add hpos
  exact ⟨Int.ediv_le_ediv hpos hl, Int.ediv_le_ediv hpos hu, h3, by omega⟩

/-- Membership in the cell origins of a region: the multiples of `maxSize`
between the floor quotients of the two corners. -/
theorem mem_cellOrigins (region : Region) (maxSize o : IVec3) (h : ChunkInput region maxSize) :
    o ∈ voxelutil.cellOrigins region maxSize ↔
      ∃ qx qy qz : Int,
        (region.lower.x / maxSize.x ≤ qx ∧ qx ≤ region.upper.x / maxSize.x) ∧
        (region.lower.y / maxSize.y ≤ qy ∧ qy ≤ region.upper.y / maxSize.y) ∧
        (region.lower.z / maxSize.z ≤ qz ∧ qz ≤ region.upper.z / maxSize.z) ∧
        o = ⟨maxSize.x * qx, maxSize.y * qy, maxSize.z * qz⟩ := by
  obtain ⟨hx, hy, hz⟩ := h
  unfold voxelutil.cellOrigins voxelformat.calcMinsMaxs
  simp only [Region.getLowerCorner, Region.getUpperCorner, List.mem_flatMap, List.mem_map,
    mem_axis_origins _ _ _ _ hx, mem_axis_origins _ _ _ _ hy, mem_axis_origins _ _ _ _ hz]
  constructor
  · rintro ⟨x, ⟨qx, hx1, hx2, rfl⟩, y, ⟨qy, hy1, hy2, rfl⟩, z, ⟨qz, hz1, hz2, rfl⟩, rfl⟩
    exact ⟨qx, qy, qz, ⟨hx1, hx2⟩, ⟨hy1, hy2⟩, ⟨hz1, hz2⟩, rfl⟩
  · rintro ⟨qx, qy, qz, ⟨hx1, hx2⟩, ⟨hy1, hy2⟩, ⟨hz1, hz2⟩, rfl⟩
    exact ⟨_, ⟨qx, hx1, hx2, rfl⟩, _, ⟨qy, hy1, hy2, rfl⟩, _, ⟨qz, hz1, hz2, rfl⟩, rfl⟩

/-- The block of a cell origin: its upper corner and its dimensions. -/
theorem blockRegion_of_cell (region : Region) (maxSize o : IVec3)
    (h : ChunkInput region maxSize) (ho : o ∈ voxelutil.cellOrigins region maxSize) :
    voxelformat.blockRegion maxSize o.x o.y o.z =
        ⟨o, ⟨o.x + maxSize.x - 1, o.y + maxSize.y - 1, o.z + maxSize.z - 1⟩⟩ ∧
      (voxelformat.blockRegion maxSize o.x o.y o.z).getDimensionsInVoxels = maxSize := by
  obtain ⟨qx, qy, qz, ⟨hx1, hx2⟩, ⟨hy1, hy2⟩, ⟨hz1, hz2⟩, rfl⟩ :=
    (mem_cellOrigins region maxSize o h).1 ho
  obtain ⟨hx, hy, hz⟩ := h
  obtain ⟨ax, bx⟩ := axis_block _ _ _ qx hx hx1 hx2
  obtain ⟨ay, by1⟩ := axis_block _ _ _ qy hy hy1 hy2
  obtain ⟨az, bz⟩ := axis_block _ _ _ qz hz hz1 hz2
  unfold voxelformat.blockRegion Region.getDimensionsInVoxels
  simp only [ax, ay, az, bx, by1, bz]
  exact ⟨trivial, trivial⟩

/-- Every point of the region lies in the block of one of the cell origins. -/
theorem cell_of_point (region : Region) (maxSize p : IVec3) (h : ChunkInput region maxSize)
    (hp : region.containsPoint p = true) :
    (⟨maxSize.x * (p.x / maxSize.x), maxSize.y * (p.y / maxSize.y),
        maxSize.z * (p.z / maxSize.z)⟩ : IVec3) ∈ voxelutil.cellOrigins region maxSize ∧
      (voxelformat.blockRegion maxSize (maxSize.x * (p.x / maxSize.x))
        (maxSize.y * (p.y / maxSize.y)) (maxSize.z * (p.z / maxSize.z))).containsPoint p
          = true := by
  unfold Region.containsPoint at hp
  simp only [Bool.and_eq_true, decide_eq_true_eq] at hp
  obtain ⟨⟨⟨⟨⟨h1, h2⟩, h3⟩, h4⟩, h5⟩, h6⟩ := hp
  obtain ⟨cx1, cx2, cx3, cx4⟩ := axis_cover _ _ _ p.x h.1 h1 h2
  obtain ⟨cy1, cy2, cy3, cy4⟩ := axis_cover _ _ _ p.y h.2.1 h3 h4
  obtain ⟨cz1, cz2, cz3, cz4⟩ := axis_cover _ _ _ p.z h.2.2 h5 h6
  have hmem : (⟨maxSize.x * (p.x / maxSize.x), maxSize.y * (p.y / maxSize.y),
      maxSize.z * (p.z / maxSize.z)⟩ : IVec3) ∈ voxelutil.cellOrigins region maxSize :=
    (mem_cellOrigins region maxSize _ h).2
      ⟨_, _, _, ⟨cx1, cx2⟩, ⟨cy1, cy2⟩, ⟨cz1, cz2⟩, rfl⟩
  refine ⟨hmem, ?_⟩
  have hb := (blockRegion_of_cell region maxSize _ h hmem).1
  simp only at hb
  rw [hb]
  unfold Region.containsPoint
  simp only [Bool.and_eq_true, decide_eq_true_eq]
  exact ⟨⟨⟨⟨⟨cx3, cx4⟩, cy3⟩, cy4⟩, cz3⟩, cz4⟩

theorem mem_splitVolume (v w : RawVolume) (maxSize : IVec3) :
    w ∈ voxelutil.splitVolume (some v) maxSize ↔
      ∃ o ∈ voxelutil.cellOrigins v.region maxSize,
        voxelformat.isEmptyBlock v maxSize o.x o.y o.z = false ∧
        w = voxelutil.subVolume v (voxelformat.blockRegion maxSize o.x o.y o.z) := by
  unfold voxelutil.splitVolume
  simp only [List.mem_map, List.mem_filter, Bool.not_eq_true']
  constructor
  · rintro ⟨o, ⟨h1, h2⟩, rfl⟩
    exact ⟨o, h1, h2, rfl⟩
  · rintro ⟨o, h1, h2, rfl⟩
    exact ⟨o, ⟨h1, h2⟩, rfl⟩

/-- The sub-volume of the cell that contains an occupied voxel is produced and
holds that voxel. -/
theorem splitVolume_holds_voxel (v : RawVolume) (maxSize : IVec3) (p : IVec3 × Nat)
    (h : ChunkInput v.region maxSize) (hp : p ∈ v.voxels)
    (hin : v.region.containsPoint p.1 = true) :
    voxelutil.subVolume v (voxelformat.blockRegion maxSize
        (maxSize.x * (p.1.x / maxSize.x)) (maxSize.y * (p.1.y / maxSize.y))
        (maxSize.z * (p.1.z / maxSize.z))) ∈ voxelutil.splitVolume (some v) maxSize ∧
      p ∈ (voxelutil.subVolume v (voxelformat.blockRegion maxSize
        (maxSize.x * (p.1.x / maxSize.x)) (maxSize.y * (p.1.y / maxSize.y))
        (maxSize.z * (p.1.z / maxSize.z)))).voxels := by
  obtain ⟨hmem, hblock⟩ := cell_of_point v.region maxSize p.1 h hin
  constructor
  · rw [mem_splitVolume]
    refine ⟨_, hmem, ?_, rfl⟩
    unfold voxelformat.isEmptyBlock voxelutil.isEmpty
    simp only [List.all_eq_false]
    exact ⟨p, hp, by simp [hblock]⟩
  · unfold voxelutil.subVolume
    simp only [List.mem_filter]
    exact ⟨hp, hblock⟩

theorem two_le_length_of_ne {α : Type} (l : List α) (a b : α) (ha : a ∈ l) (hb : b ∈ l)
    (hab : a ≠ b) : 2 ≤ l.length := by
  match l, ha, hb with
  | [], ha, _ => simp at ha
  | [c], ha, hb =>
    simp only [List.mem_singleton] at ha hb
    exact absurd (ha.trans hb.symm) hab
  | _ :: _ :: _, _, _ => simp

/-- What the modelled volume splitter returns for a well-formed volume. -/
theorem splitVolume_spec (v : RawVolume) (maxSize : IVec3) (h : ChunkInput v.region maxSize)
    (hwf : ∀ p ∈ v.voxels, v.region.containsPoint p.1 = true) :
    (∀ w ∈ voxelutil.splitVolume (some v) maxSize,
      w.region.getDimensionsInVoxels = maxSize) ∧
    (∀ p, p ∈ v.voxels ↔ ∃ w ∈ voxelutil.splitVolume (some v) maxSize, p ∈ w.voxels) ∧
    (∀ p q, p ∈ v.voxels → q ∈ v.voxels → InDifferentCells maxSize p.1 q.1 →
      2 ≤ (voxelutil.splitVolume (some v) maxSize).length) := by
  refine ⟨?_, ?_, ?_⟩
  · intro w hw
    obtain ⟨o, ho, _, rfl⟩ := (mem_splitVolume v w maxSize).1 hw
    exact (blockRegion_of_cell v.region maxSize o h ho).2
  · intro p
    constructor
    · intro hp
      obtain ⟨h1, h2⟩ := splitVolume_holds_voxel v maxSize p h hp (hwf p hp)
      exact ⟨_, h1, h2⟩
    · rintro ⟨w, hw, hpw⟩
      obtain ⟨o, _, _, rfl⟩ := (mem_splitVolume v w maxSize).1 hw
      unfold voxelutil.subVolume at hpw
      exact (List.mem_filter.1 hpw).1
  · intro p q hp hq hdiff
    obtain ⟨hp1, _⟩ := splitVolume_holds_voxel v maxSize p h hp (hwf p hp)
    obtain ⟨hq1, _⟩ := splitVolume_holds_voxel v maxSize q h hq (hwf q hq)
    refine two_le_length_of_ne _ _ _ hp1 hq1 ?_
    intro heq
    have hlow := congrArg (fun w : RawVolume => w.region.lower) heq
    simp only [voxelutil.subVolume, voxelformat.blockRegion, IVec3.mk.injEq] at hlow
    obtain ⟨_, _, _, _, hx, _⟩ := axis_values _ _ _ h.1
    obtain ⟨_, _, _, _, hy, _⟩ := axis_values _ _ _ h.2.1
    obtain ⟨_, _, _, _, hz, _⟩ := axis_values _ _ _ h.2.2
    obtain ⟨e1, e2, e3⟩ := hlow
    rcases hdiff with hd | hd | hd
    · exact hd (Int.eq_of_mul_eq_mul_left (ne_of_gt hx) e1)
    · exact hd (Int.eq_of_mul_eq_mul_left (ne_of_gt hy) e2)
    · exact hd (Int.eq_of_mul_eq_mul_left (ne_of_gt hz) e3)

/-! ## Claim C11: chunking of an oversized node -/

/-- Counterexample to claim C11 as stated: a node 17 voxels wide (one more than
`maxSize = 16`) whose only occupied voxel lies in the second cell. The empty
first cell is discarded, so `splitVolumes` produces one node, not two. -/
theorem splitVolumes_sparse_node_gives_one_node :
    Example.nodeWide.region.isValid = true ∧
    Example.nodeWide.region.getDimensionsInVoxels = ⟨17, 16, 16⟩ ∧
    (voxelformat.splitVolumes Example.env ⟨[Example.nodeWide]⟩ SceneGraph.empty
      ⟨16, 16, 16⟩ false).1.nodes.length = 1 := by
  decide

/-- Claim C11, amended. For a source node with a valid region that exceeds
`maxSize` (for instance on one axis by exactly one voxel), with `crop = false`,
power-of-two `maxSize` and the volume splitter of the specification,
`splitVolumes` calls the splitter once and appends one node per non-empty
`maxSize`-aligned cell of the node's volume: at least 2 nodes when occupied
voxels lie in two different cells. Every produced node has the region
dimensions `maxSize`, the occupied voxels of the produced nodes together are
the occupied voxels of the source node, and every produced node carries the
type, name, palette and properties of the source node and hangs below the
root. -/
theorem splitVolumes_chunks_oversized_node (env : voxelformat.Env) (maxSize : IVec3)
    (node : SceneGraphNode) (v : RawVolume) (rest : List SceneGraphNode) (poll : Nat)
    (dest : SceneGraph) (trace : List voxelformat.SaveEvent)
    (henv : env.splitVolume = voxelutil.splitVolume)
    (hvol : node.volume = some v)
    (hin : ChunkInput v.region maxSize)
    (hex : Exceeds v.region.getDimensionsInVoxels maxSize)
    (hwf : ∀ p ∈ v.voxels, v.region.containsPoint p.1 = true)
    (hstop : env.shouldQuit poll = false) :
    ∃ produced : List SceneGraphNode,
      voxelformat.splitVolumesLoop env maxSize false (node :: rest) poll (dest, trace) =
        voxelformat.splitVolumesLoop env maxSize false rest (poll + 1)
          (⟨dest.nodes ++ produced⟩,
            trace ++ [voxelformat.SaveEvent.splitVolume (some v) maxSize]) ∧
      produced.length = ((voxelutil.cellOrigins v.region maxSize).filter
        (fun o => !voxelformat.isEmptyBlock v maxSize o.x o.y o.z)).length ∧
      (∀ p q, p ∈ v.voxels → q ∈ v.voxels → InDifferentCells maxSize p.1 q.1 →
        2 ≤ produced.length) ∧
      (∀ n ∈ produced, n.region.getDimensionsInVoxels = maxSize ∧
        allLessThanEqual n.region.getDimensionsInVoxels maxSize = true) ∧
      (∀ p, p ∈ v.voxels ↔ ∃ n ∈ produced, ∃ w, n.volume = some w ∧ p ∈ w.voxels) ∧
      (∀ n ∈ produced, n.type = node.type ∧ n.name = node.name ∧
        n.palette = node.palette ∧ n.properties = node.properties ∧ n.parent = 0) := by
  obtain ⟨hdims, hunion, htwo⟩ := splitVolume_spec v maxSize hin hwf
  have hregion : node.region = v.region := by
    unfold SceneGraphNode.region; rw [hvol]
  have hvalid : node.region.isValid = true := by
    rw [hregion]
    unfold Region.isValid
    simp [hin.1.le, hin.2.1.le, hin.2.2.le]
  have hnofit : allLessThanEqual node.region.getDimensionsInVoxels maxSize = false := by
    rw [hregion, allLessThanEqual_eq_false]; exact hex
  have hstep : voxelformat.splitVolumesLoop env maxSize false (node :: rest) poll (dest, trace) =
      voxelformat.splitVolumesLoop env maxSize false rest (poll + 1)
        (⟨dest.nodes ++ (voxelutil.splitVolume (some v) maxSize).map
            (fun w => (copyNode node SceneGraphNode.new false).setVolume (some w))⟩,
          trace ++ [voxelformat.SaveEvent.splitVolume (some v) maxSize]) := by
    rw [splitVolumesLoop_step env maxSize false node rest poll (dest, trace) hstop]
    unfold processNode
    simp only [hvalid, hnofit, Bool.true_eq_false, Bool.false_eq_true, if_false]
    rw [emplaceSplit_no_crop, henv, hvol]
  refine ⟨_, hstep, ?_, ?_, ?_, ?_, ?_⟩
  · simp [voxelutil.splitVolume]
  · intro p q hp hq hd
    rw [List.length_map]
    exact htwo p q hp hq hd
  · intro n hn
    obtain ⟨w, hw, rfl⟩ := List.mem_map.1 hn
    have hd : ((copyNode node SceneGraphNode.new false).setVolume (some w)).region
        = w.region := rfl
    rw [hd, hdims w hw]
    exact ⟨rfl, by simp [allLessThanEqual]⟩
  · intro p
    rw [hunion p]
    constructor
    · rintro ⟨w, hw, hpw⟩
      exact ⟨_, List.mem_map.2 ⟨w, hw, rfl⟩, w, rfl, hpw⟩
    · rintro ⟨n, hn, w, hnw, hpw⟩
      obtain ⟨w1, hw1, rfl⟩ := List.mem_map.1 hn
      have : w1 = w := by
        simpa [SceneGraphNode.setVolume] using hnw
      exact ⟨w, this ▸ hw1, hpw⟩
  · intro n hn
    obtain ⟨w, _, rfl⟩ := List.mem_map.1 hn
    exact ⟨rfl, rfl, rfl, rfl, rfl⟩

theorem splitVolumes_chunks_oversized_node_witness :
    ∃ produced : List SceneGraphNode,
      voxelformat.splitVolumesLoop Example.env ⟨16, 16, 16⟩ false [Example.nodeSplit] 0
          (SceneGraph.empty, []) =
        (⟨produced⟩, [voxelformat.SaveEvent.splitVolume Example.nodeSplit.volume ⟨16, 16, 16⟩]) ∧
      2 ≤ produced.length := by
  obtain ⟨produced, h1, _, h3, _⟩ := splitVolumes_chunks_oversized_node Example.env
    ⟨16, 16, 16⟩ Example.nodeSplit
    ⟨⟨⟨0, 0, 0⟩, ⟨16, 15, 15⟩⟩, [(⟨0, 0, 0⟩, 1), (⟨16, 0, 0⟩, 2)]⟩ [] 0 SceneGraph.empty []
    rfl rfl
    ⟨⟨⟨4, by decide, by decide⟩, by decide, by decide, by decide, by decide⟩,
      ⟨⟨4, by decide, by decide⟩, by decide, by decide, by decide, by decide⟩,
      ⟨⟨4, by decide, by decide⟩, by decide, by decide, by decide, by decide⟩⟩
    (by decide) (by decide) rfl
  refine ⟨produced, ?_, h3 (⟨0, 0, 0⟩, 1) (⟨16, 0, 0⟩, 2) (by decide) (by decide)
    (Or.inl (by decide))⟩
  rw [h1]
  simp [voxelformat.splitVolumesLoop, SceneGraph.empty]
  rfl

theorem save_passes_through_or_splits_witness :
    (Example.chunkedFormat.save Example.env ⟨[Example.nodeA, Example.nodeB]⟩ "out.qb" =
      (true, [voxelformat.SaveEvent.saveGroups ⟨[Example.nodeA, Example.nodeB]⟩ "out.qb"])) ∧
    ((Example.chunkedFormat.save Example.env ⟨[Example.nodeA, Example.nodeSplit]⟩
      "out.qb").2.filter isSaveGroups).length = 1 := by
  have h1 := (save_passes_through_or_splits Example.chunkedFormat Example.env
    ⟨[Example.nodeA, Example.nodeB]⟩ "out.qb" rfl (by decide)).1 (by decide)
  have h2 := ((save_passes_through_or_splits Example.chunkedFormat Example.env
    ⟨[Example.nodeA, Example.nodeSplit]⟩ "out.qb" rfl (by decide)).2
      ⟨Example.nodeSplit, by simp, by decide⟩).2.1
  exact ⟨h1, h2⟩

/-- Claim C19. `Format::save` treats `maxSize` as constrained only when every
axis is strictly positive: with at least one axis `≤ 0` no node is compared
with `maxSize`, so `save` never fails for size reasons and never enters
`splitVolumes`, whatever the node sizes: it calls `saveGroups` once, with the
merged graph when `singleVolume()` is true and with the original graph
otherwise, and returns the result of that call. -/
theorem save_nonpositive_axis_is_unconstrained (f : voxelformat.Format)
    (env : voxelformat.Env) (sceneGraph : SceneGraph) (filename : String)
    (h : f.maxSize.x ≤ 0 ∨ f.maxSize.y ≤ 0 ∨ f.maxSize.z ≤ 0) :
    f.save env sceneGraph filename =
      (if f.singleVolume = true then
        (f.saveGroups (mergedGraph env sceneGraph) filename,
          [voxelformat.SaveEvent.merge sceneGraph,
            voxelformat.SaveEvent.saveGroups (mergedGraph env sceneGraph) filename])
      else
        (f.saveGroups sceneGraph filename,
          [voxelformat.SaveEvent.saveGroups sceneGraph filename])) ∧
    (∀ e ∈ (f.save env sceneGraph filename).2, isSplitVolumes e = false) ∧
    ((f.save env sceneGraph filename).2.filter isSaveGroups).length = 1 := by
  have hsave := save_without_split f env sceneGraph filename (by
    have : ¬ (f.maxSize.x > 0 ∧ f.maxSize.y > 0 ∧ f.maxSize.z > 0) := by omega
    simp [this])
  refine ⟨hsave, ?_, ?_⟩
  · rw [hsave]
    intro e he
    by_cases hs : f.singleVolume = true
    · simp only [hs, if_true, List.mem_cons, List.mem_singleton, List.not_mem_nil,
        or_false] at he
      rcases he with rfl | rfl <;> rfl
    · simp only [hs, if_false, List.mem_singleton, Bool.false_eq_true] at he
      rw [he]; rfl
  · rw [hsave]
    by_cases hs : f.singleVolume = true
    · simp only [hs, if_true]; rfl
    · simp only [hs, if_false, Bool.false_eq_true]; rfl

theorem save_nonpositive_axis_is_unconstrained_witness :
    Exceeds Example.nodeWide.region.getDimensionsInVoxels Example.partlyLimitedFormat.maxSize ∧
    Example.partlyLimitedFormat.save Example.env ⟨[Example.nodeWide]⟩ "out.qb" =
      (true, [voxelformat.SaveEvent.saveGroups ⟨[Example.nodeWide]⟩ "out.qb"]) := by
  have h := (save_nonpositive_axis_is_unconstrained Example.partlyLimitedFormat Example.env
    ⟨[Example.nodeWide]⟩ "out.qb" (Or.inr (Or.inl (by decide)))).1
  exact ⟨by decide, h⟩

/-- Claim C20. Equality of format descriptions is not reflexive: a description
with an empty name and no extension is not equal to itself; more generally
`x == d` is false whenever `d` has no extension and one of the two names is
empty; every description with a non-empty name is equal to itself. -/
theorem formatDescription_eq_not_reflexive :
    (∀ d : FormatDescription, d.name = "" → d.exts = [] → d.eq d = false) ∧
    (∀ x d : FormatDescription, d.exts = [] → (x.name = "" ∨ d.name = "") →
      x.eq d = false) ∧
    (∀ d : FormatDescription, d.name ≠ "" → d.eq d = true) := by
  have hgen : ∀ x d : FormatDescription, d.exts = [] → (x.name = "" ∨ d.name = "") →
      x.eq d = false := by
    intro x d hd hname
    have hcond : (x.name.isEmpty || d.name.isEmpty) = true := by
      rcases hname with h | h
      · simp [(String.isEmpty_iff x.name).2 h]
      · simp [(String.isEmpty_iff d.name).2 h]
    unfold FormatDescription.eq
    rw [if_pos hcond, hd]
  refine ⟨fun d hn he => hgen d d he (Or.inl hn), hgen, ?_⟩
  intro d hd
  have h1 := (String.isEmpty_eq_false_iff d.name).2 hd
  unfold FormatDescription.eq
  simp [h1]

theorem formatDescription_eq_not_reflexive_witness :
    Example.descEmpty.eq Example.descEmpty = false ∧
    Example.descMagica.eq Example.descEmpty = false ∧
    Example.descMagica.eq Example.descMagica = true :=
  ⟨formatDescription_eq_not_reflexive.1 Example.descEmpty rfl rfl,
    formatDescription_eq_not_reflexive.2.1 Example.descMagica Example.descEmpty rfl
      (Or.inr rfl),
    formatDescription_eq_not_reflexive.2.2 Example.descMagica (by decide)⟩

/-! ## Skipped nodes and the stop signal in splitVolumes -/

/-- The loop up to the first raised stop signal: the nodes before it are
processed one after the other, the nodes from it on are not touched. -/
theorem splitVolumesLoop_until_stop (env : voxelformat.Env) (maxSize : IVec3) (crop : Bool)
    (nodes : List SceneGraphNode) :
    ∀ (poll k : Nat) (acc : SceneGraph × List voxelformat.SaveEvent),
      k ≤ nodes.length →
      (∀ i, i < k → env.shouldQuit (poll + i) = false) →
      (k < nodes.length → env.shouldQuit (poll + k) = true) →
      voxelformat.splitVolumesLoop env maxSize crop nodes poll acc =
        (nodes.take k).foldl (fun a n => processNode env maxSize crop n a) acc := by
  induction nodes with
  | nil =>
    intro poll k acc _ _ _
    obtain ⟨dest, trace⟩ := acc
    simp [voxelformat.splitVolumesLoop]
  | cons n rest ih =>
    intro poll k acc hk hbefore hat
    cases k with
    | zero =>
      have hstop : env.shouldQuit poll = true := by simpa using hat (by simp)
      rw [splitVolumesLoop_stop env maxSize crop n rest poll acc hstop]
      simp
    | succ j =>
      have h0 : env.shouldQuit poll = false := by simpa using hbefore 0 (by omega)
      rw [splitVolumesLoop_step env maxSize crop n rest poll acc h0]
      rw [ih (poll + 1) j _ (by simpa using hk)]
      · simp
      · intro i hi
        have := hbefore (i + 1) (by omega)
        rw [← this]; congr 1; omega
      · intro hj
        have := hat (by simpa using hj)
        rw [← this]; congr 1; omega

/-- Without stop signal the loop processes every node. -/
theorem splitVolumesLoop_no_stop (env : voxelformat.Env) (maxSize : IVec3) (crop : Bool)
    (nodes : List SceneGraphNode) (poll : Nat) (acc : SceneGraph × List voxelformat.SaveEvent)
    (hno : ∀ i, env.shouldQuit i = false) :
    voxelformat.splitVolumesLoop env maxSize crop nodes poll acc =
      nodes.foldl (fun a n => processNode env maxSize crop n a) acc := by
  rw [splitVolumesLoop_until_stop env maxSize crop nodes poll nodes.length acc (le_refl _)
    (fun i _ => hno _) (fun h => absurd h (lt_irrefl _))]
  simp

/-- Claim C17. An invalid node is skipped, not fatal, in `splitVolumes`: with
no stop signal, a node whose region is invalid leaves the destination graph and
the trace as they are, and the result for the whole source graph is the result
for the source graph without that node. -/
theorem splitVolumes_skips_invalid_node (env : voxelformat.Env) (maxSize : IVec3)
    (crop : Bool) (before after : List SceneGraphNode) (node : SceneGraphNode)
    (dest : SceneGraph) (hno : ∀ i, env.shouldQuit i = false)
    (hinv : node.region.isValid = false) :
    (∀ (poll : Nat) (acc : SceneGraph × List voxelformat.SaveEvent),
      voxelformat.splitVolumesLoop env maxSize crop (node :: after) poll acc =
        voxelformat.splitVolumesLoop env maxSize crop after (poll + 1) acc) ∧
    voxelformat.splitVolumes env ⟨before ++ node :: after⟩ dest maxSize crop =
      voxelformat.splitVolumes env ⟨before ++ after⟩ dest maxSize crop := by
  have hskip : ∀ acc, processNode env maxSize crop node acc = acc := by
    intro acc
    unfold processNode
    simp [hinv]
  constructor
  · intro poll acc
    rw [splitVolumesLoop_step env maxSize crop node after poll acc (hno poll), hskip]
  · unfold voxelformat.splitVolumes
    rw [splitVolumesLoop_no_stop env maxSize crop _ 0 _ hno,
      splitVolumesLoop_no_stop env maxSize crop _ 0 _ hno]
    simp [List.foldl_append, hskip]

theorem splitVolumes_skips_invalid_node_witness :
    voxelformat.splitVolumes Example.env
        ⟨[Example.nodeA] ++ Example.nodeInvalid :: [Example.nodeSplit]⟩ SceneGraph.empty
        ⟨16, 16, 16⟩ false =
      voxelformat.splitVolumes Example.env ⟨[Example.nodeA] ++ [Example.nodeSplit]⟩
        SceneGraph.empty ⟨16, 16, 16⟩ false :=
  (splitVolumes_skips_invalid_node Example.env ⟨16, 16, 16⟩ false [Example.nodeA]
    [Example.nodeSplit] Example.nodeInvalid SceneGraph.empty (fun _ => rfl) (by decide)).2

/-- Claim C18. `splitVolumes` honours the stop signal at node boundaries. The
signal is polled before each source node; when the polls before node `k` are
false and the poll at node `k` is true, the result is the output for the first
`k` source nodes, which is also what `splitVolumes` yields for the source graph
cut down to these nodes, and no later node is added whatever the signal does
afterwards. When the signal is set at the first poll the destination graph is
returned unchanged. -/
theorem splitVolumes_stops_at_signal (env : voxelformat.Env) (maxSize : IVec3) (crop : Bool)
    (src dest : SceneGraph) (k : Nat) (hk : k ≤ src.nodes.length)
    (hbefore : ∀ i, i < k → env.shouldQuit i = false)
    (hat : k < src.nodes.length → env.shouldQuit k = true) :
    voxelformat.splitVolumes env src dest maxSize crop =
      (src.nodes.take k).foldl (fun a n => processNode env maxSize crop n a) (dest, []) ∧
    voxelformat.splitVolumes env src dest maxSize crop =
      voxelformat.splitVolumes env ⟨src.nodes.take k⟩ dest maxSize crop ∧
    (env.shouldQuit 0 = true →
      voxelformat.splitVolumes env src dest maxSize crop = (dest, [])) := by
  have h1 : voxelformat.splitVolumes env src dest maxSize crop =
      (src.nodes.take k).foldl (fun a n => processNode env maxSize crop n a) (dest, []) := by
    unfold voxelformat.splitVolumes
    exact splitVolumesLoop_until_stop env maxSize crop src.nodes 0 k (dest, []) hk
      (fun i hi => by simpa using hbefore i hi) (fun h => by simpa using hat h)
  have h2 : voxelformat.splitVolumes env ⟨src.nodes.take k⟩ dest maxSize crop =
      (src.nodes.take k).foldl (fun a n => processNode env maxSize crop n a) (dest, []) := by
    unfold voxelformat.splitVolumes
    have hlen : (src.nodes.take k).length = k := by simp [hk]
    rw [splitVolumesLoop_until_stop env maxSize crop (src.nodes.take k) 0 k (dest, [])
      (by omega) (fun i hi => by simpa using hbefore i hi) (fun h => by omega)]
    rw [List.take_take, min_self]
  refine ⟨h1, h1.trans h2.symm, ?_⟩
  intro h0
  unfold voxelformat.splitVolumes
  cases hn : src.nodes with
  | nil => simp [voxelformat.splitVolumesLoop]
  | cons n rest => exact splitVolumesLoop_stop env maxSize crop n rest 0 (dest, []) h0

theorem splitVolumes_stops_at_signal_witness :
    voxelformat.splitVolumes Example.envStopAtTwo
        ⟨[Example.nodeA, Example.nodeB, Example.nodeSplit, Example.nodeA]⟩ SceneGraph.empty
        ⟨16, 16, 16⟩ false =
      (⟨[Example.nodeA, Example.nodeB]⟩, []) := by
  have h := (splitVolumes_stops_at_signal Example.envStopAtTwo ⟨16, 16, 16⟩ false
    ⟨[Example.nodeA, Example.nodeB, Example.nodeSplit, Example.nodeA]⟩ SceneGraph.empty 2
    (by decide) (by decide) (fun _ => by decide)).1
  rw [h]
  decide

/-! ## Palette selection and the create-palette setting -/

/-- When `core::Var::get` returns a null pointer the palette probe is left out:
the decoder receives the entry stream and the default palette. -/
theorem rgba_no_probe_when_unregistered (f : voxelformat.RGBAFormat) (env : voxelformat.Env)
    (filename : String) (stream : SeekableReadStream)
    (h : env.voxelCreatePalette = none) :
    f.selectPalette env filename stream = (stream, env.getPalette, []) := by
  unfold voxelformat.RGBAFormat.selectPalette voxelformat.createPalette
  simp [h]

/-- Claim C13, the code at the failing input. The create-palette setting is
registered and its boolean value is false; all the same `loadGroups` calls
`loadPalette` on the entry stream, seeks back, and hands the probed palette,
not the default palette, to `loadGroupsRGBA`. -/
theorem rgba_loadGroups_probes_when_setting_is_false :
    Example.envPaletteOff.voxelCreatePalette = some ⟨false, 0⟩ ∧
    (Example.rgbaProbeFormat.loadGroups Example.envPaletteOff "in.png" Example.stream
        SceneGraph.empty).trace =
      [voxelformat.LoadEvent.loadPalette Example.stream Palette.empty,
        voxelformat.LoadEvent.seek 2,
        voxelformat.LoadEvent.loadGroupsRGBA Example.stream ⟨[0xff102030, 0xff405060]⟩,
        voxelformat.LoadEvent.updateTransforms] ∧
    (⟨[0xff102030, 0xff405060]⟩ : Palette) ≠ Example.envPaletteOff.getPalette := by
  decide

/-! ## The alignment precondition of calcMinsMaxs -/

theorem not_isPow2I32_three : ¬ IsPow2I32 3 := by
  rintro ⟨k, hk, h⟩
  interval_cases k <;> norm_num at h

/-- Counterexample to claim C14 as stated: for `maxSize = (3,3,3)`, which is no
power of two, `calcMinsMaxs` returns a result, and the lower coordinate 5 yields
`mins = 5`, which is no multiple of 3. -/
theorem calcMinsMaxs_accepts_non_power_of_two :
    ¬ IsPow2I32 3 ∧
    voxelformat.calcMinsMaxs ⟨⟨5, 5, 5⟩, ⟨7, 7, 7⟩⟩ ⟨3, 3, 3⟩ = (⟨5, 5, 5⟩, ⟨7, 7, 7⟩) ∧
    ¬ ((3 : Int) ∣ 5) := by
  refine ⟨not_isPow2I32_three, by decide, by decide⟩

/-- Claim C14, amended. `calcMinsMaxs` has no precondition check and returns
`mins` and `maxs` for every `maxSize`. The result is aligned (on each axis
`maxSize` divides `mins` and `maxs + 1`) when every axis of `maxSize` is a
positive power of two; for a size that is no power of two the result can be
misaligned. -/
theorem calcMinsMaxs_aligned_only_for_powers_of_two :
    (∀ (region : Region) (maxSize : IVec3), ChunkInput region maxSize →
      (maxSize.x ∣ (voxelformat.calcMinsMaxs region maxSize).1.x ∧
        maxSize.x ∣ (voxelformat.calcMinsMaxs region maxSize).2.x + 1) ∧
      (maxSize.y ∣ (voxelformat.calcMinsMaxs region maxSize).1.y ∧
        maxSize.y ∣ (voxelformat.calcMinsMaxs region maxSize).2.y + 1) ∧
      (maxSize.z ∣ (voxelformat.calcMinsMaxs region maxSize).1.z ∧
        maxSize.z ∣ (voxelformat.calcMinsMaxs region maxSize).2.z + 1)) ∧
    (∃ (region : Region) (maxSize : IVec3), ¬ IsPow2I32 maxSize.x ∧
      ¬ (maxSize.x ∣ (voxelformat.calcMinsMaxs region maxSize).1.x)) := by
  constructor
  · intro region maxSize h
    have key : ∀ m l u : Int, AxisInput m l u →
        m ∣ and32 l (not32 (sub32 m 1)) ∧
          m ∣ sub32 (add32 (and32 u (not32 (sub32 m 1))) m) 1 + 1 := by
      intro m l u ha
      obtain ⟨h1, h2, _⟩ := axis_values m l u ha
      rw [h1, h2]
      exact ⟨Dvd.intro _ rfl, ⟨u / m + 1, by ring⟩⟩
    exact ⟨key _ _ _ h.1, key _ _ _ h.2.1, key _ _ _ h.2.2⟩
  · exact ⟨⟨⟨5, 5, 5⟩, ⟨7, 7, 7⟩⟩, ⟨3, 3, 3⟩, not_isPow2I32_three, by decide⟩

theorem calcMinsMaxs_aligned_only_for_powers_of_two_witness :
    ((16 : Int) ∣ 0 ∧ (16 : Int) ∣ 47 + 1) ∧ ((8 : Int) ∣ 16 ∧ (8 : Int) ∣ 23 + 1) ∧
      ((4 : Int) ∣ -4 ∧ (4 : Int) ∣ -1 + 1) := by
  have h := calcMinsMaxs_aligned_only_for_powers_of_two.1 ⟨⟨5, 20, -3⟩, ⟨40, 21, -1⟩⟩ ⟨16, 8, 4⟩
    ⟨⟨⟨4, by decide, by decide⟩, by decide, by decide, by decide, by decide⟩,
      ⟨⟨3, by decide, by decide⟩, by decide, by decide, by decide, by decide⟩,
      ⟨⟨2, by decide, by decide⟩, by decide, by decide, by decide, by decide⟩⟩
  exact h

/-! ## Palette reduction -/

theorem quantize_idempotent (c : Nat) (f : Int) :
    core.Color.quantize (core.Color.quantize c f) f = core.Color.quantize c f := by
  unfold core.Color.quantize
  by_cases h : f ≤ 1
  · simp [h]
  · simp only [h, if_false]
    have hpos : 0 < f.toNat := by omega
    rw [Nat.mul_div_cancel _ hpos]

/-- Claim C16. `flattenRGB` is idempotent for the flatten factor fixed in the
format instance, and the two overloads agree. -/
theorem flattenRGB_idempotent (f : voxelformat.Format) (c : core.RGBA) :
    f.flattenRGB (f.flattenRGB c) = f.flattenRGB c ∧
    f.flattenRGB c = f.flattenRGB4 c.r c.g c.b c.a := by
  refine ⟨?_, rfl⟩
  unfold voxelformat.Format.flattenRGB core.Color.flattenRGB
  simp only [quantize_idempotent]
